import Mathlib

/-!
Shallow embedding of the e-commerce synthetic-data generator
(`src/generators/*.py`, `src/ecomgen/run_data_generation.py`) in Lean 4.

Modelling conventions, used throughout:

* Dates and timestamps are day numbers (`ℤ`).  Every claim-relevant
  comparison in the source (`next_cart_date > global_end_date`,
  `return_date_obj.date() > global_end_date`, window clamping, ...) is a
  date-level comparison, so day granularity is exact.
* Money is in integer cents (`ℤ`).  The catalog generator produces
  `round(uniform(...), 2)` prices and all totals are obtained from cent
  amounts by sums and `round(x, 2)`, which is the identity on whole cents,
  so the cents embedding is exact for generator-produced data.
* Python's global `random` / `numpy` / `Faker` stream is made explicit:
  each generator takes an oracle record whose fields give the successive
  draws (indexed by the loop counters in exactly the order the source
  consumes them).  Distribution shape is irrelevant to the claims; where
  the support matters (`random.randint`, `random.choice`) the draw is
  reduced modulo the size of the range so that every modelled draw is a
  possible draw of the source and vice versa.
* `faker.unique.bothify("XX-########")` id generation is modelled by a
  counter producing `"XX-" ++ toString i`, which keeps the uniqueness
  guarantee of `faker.unique` and the string prefix checked downstream.
* Fallible generators return `Except String _`, mirroring `raise ValueError`.
-/

/-- Python `random.randint(a, b)` (inclusive on both ends), driven by a raw
draw `d`: the value is `a + (d mod (b - a + 1))`, so it always lies in
`[a, b]` when `a ≤ b`, exactly like the source. -/
def pyRandint (a b : ℤ) (d : ℕ) : ℤ :=
  a + (d % ((b - a + 1).toNat : ℤ))

/-- Python `random.choice(xs)`, driven by a raw draw `d`; `dflt` is returned
for an empty list (the source would raise, no claim exercises that path). -/
def pyChoice (xs : List α) (dflt : α) (d : ℕ) : α :=
  (xs.get? (d % xs.length)).getD dflt

/-- Python `random.sample(xs, k)` / weighted index selection: the stream
supplies a list of positions `idxs` into `xs`; `random.sample` guarantees the
positions are pairwise distinct and in range, which theorems assume as an
explicit hypothesis where needed. -/
def sampleBy (idxs : List ℕ) (xs : List α) : List α :=
  idxs.filterMap (fun i => xs.get? i)

/-- Python 3 `round(q)` to an integer: round-half-to-even on the exact
rational value. -/
def pyRound (q : ℚ) : ℤ :=
  let f : ℤ := ⌊q⌋
  let r : ℚ := q - (f : ℚ)
  if r < 1/2 then f
  else if 1/2 < r then f + 1
  else if f % 2 = 0 then f else f + 1

/-- `utils/date_utils.safe_date_between`: swaps out-of-order bounds, then
returns `start + randint(0, (end - start).days)`. -/
def safe_date_between (startDate endDate : ℤ) (d : ℕ) : ℤ :=
  let s := if startDate > endDate then endDate else startDate
  let e := if startDate > endDate then startDate else endDate
  s + pyRandint 0 (e - s) d

/-- Python `str.lower()` (the pipeline's category strings are ASCII); the
built-in `String.toLower` iterates by UTF-8 position and does not reduce in
the kernel, so the map is taken over the character data directly. -/
def pyLower (s : String) : String := ⟨s.data.map Char.toLower⟩

/-- Python `str.startswith(pre)`; the built-in `String.startsWith` compares
by UTF-8 position and does not reduce in the kernel, so the prefix test is
taken over the character data. -/
def pyStartsWith (s pre : String) : Bool := pre.data.isPrefixOf s.data

/-- Association-list lookup with a default (Python `dict.get(k, dflt)`). -/
def lookupD [BEq α] (m : List (α × β)) (k : α) (dflt : β) : β :=
  ((m.lookup k).getD dflt)

/-! ## Cart lifecycle simulator (`generator_carts.generate_shopping_carts`)

The organic repeat-visit loop (source lines 126-157) is the part claim C7 is
about; it is embedded as `repeatVisitLoop`, a literal translation of the
`for i in range(num_repeat_visits)` loop.  The loop state is the date of the
customer's last cart; the result records the generated repeat-cart dates, the
final last-cart date, and whether the loop was cut short by `break`. -/

/-- Oracle for one customer's repeat-visit loop: `rawDelay i` is the value of
`int(np.random.lognormal(mean=mu, sigma=sigma))` at visit `i` (any natural
number, matching the support of the source draw), `redraw i` is the raw draw
behind `random.randint(1, time_left_days)` at visit `i`. -/
structure RepeatOracle where
  rawDelay : ℕ → ℕ
  redraw : ℕ → ℕ

/-- Result of the repeat-visit loop for one customer. -/
structure RepeatResult where
  dates : List ℤ
  lastDate : ℤ
  broke : Bool
  deriving Repr, DecidableEq

/-- The organic repeat-visit loop of `generate_shopping_carts` (lines
126-157): for each of the `n` Poisson-drawn visits, draw a log-normal delay,
clamp it below by `range0`; if the resulting date overshoots `endDate`,
re-draw uniformly in the remaining `[1, time_left]` window when
`time_left > 0`, else `break` (dropping this visit and all later ones). -/
def repeatVisitLoop (o : RepeatOracle) (range0 endDate : ℤ) :
    ℕ → ℕ → ℤ → RepeatResult
  | 0, _, last => { dates := [], lastDate := last, broke := false }
  | n + 1, i, last =>
    let delay : ℤ := max range0 (o.rawDelay i : ℤ)
    let next : ℤ := last + delay
    if next > endDate then
      let timeLeft : ℤ := endDate - last
      if timeLeft > 0 then
        let next2 : ℤ := last + pyRandint 1 timeLeft (o.redraw i)
        let rest := repeatVisitLoop o range0 endDate n (i + 1) next2
        { rest with dates := next2 :: rest.dates }
      else
        { dates := [], lastDate := last, broke := true }
    else
      let rest := repeatVisitLoop o range0 endDate n (i + 1) next
      { rest with dates := next :: rest.dates }

/-! ## Customers, carts, cart items (data model) -/

/-- A customer record (`generator_customers.generate_customers`); only the
claim-relevant fields are carried.  `loyalty_tier` / `clv_bucket` are the
mutable fields overwritten by the earned-status post-processor. -/
structure Customer where
  customer_id : String
  signup_date : Option ℤ
  signup_channel : Option String
  initial_loyalty_tier : Option String
  loyalty_tier : Option String
  clv_bucket : Option String
  is_guest : Bool
  deriving Repr, DecidableEq

/-- A shopping-cart record. -/
structure Cart where
  cart_id : String
  customer_id : String
  created_at : ℤ
  updated_at : ℤ
  status : String
  cart_total : ℤ
  deriving Repr, DecidableEq

/-- A cart-item record (only the FK is claim-relevant). -/
structure CartItem where
  cart_item_id : ℕ
  cart_id : String
  product_id : ℕ
  quantity : ℤ
  unit_price : ℤ
  deriving Repr, DecidableEq

/-! ## Conversion funnel (`run_data_generation.main`, the
`table_name == "cart_items"` block, lines 367-421)

The source sorts the carts by `created_at` (Python `sorted`, a stable sort),
walks them once deciding conversion with a first-purchase boost, then walks
the not-converted carts deciding `emptied` vs `abandoned`, zeroing
`cart_total` of emptied carts and filtering their items out of `cart_items`.
The source mutates the cart dicts in place, so the final `shopping_carts`
table is the same multiset of records in the original list order; the
embedding returns the records in processing order, which is a permutation and
irrelevant to the row-wise invariant of claim C2. -/

structure FunnelConfig where
  conversion_rate : ℚ
  boosts : List (String × ℚ)
  emptied_prob : ℚ

/-- Oracle for the funnel: `convRoll i` is the `random.random()` draw for the
`i`-th cart in sorted order, `emptyRoll j` the draw for the `j`-th
not-converted cart. -/
structure FunnelOracle where
  convRoll : ℕ → ℚ
  emptyRoll : ℕ → ℚ

/-- First pass of the funnel: walk the sorted carts, tag each with its
conversion decision, growing the `customers_with_orders` set as the source
does.  `chanOf` is `customers_by_id[...].get('signup_channel')`. -/
def funnelFirstPass (cfg : FunnelConfig) (chanOf : String → Option String)
    (o : FunnelOracle) : List Cart → (String → Bool) → ℕ → List (Cart × Bool)
  | [], _, _ => []
  | c :: rest, hasOrder, i =>
    let rate : ℚ :=
      if hasOrder c.customer_id then cfg.conversion_rate
      else
        cfg.conversion_rate *
          (match chanOf c.customer_id with
           | some ch => lookupD cfg.boosts ch 1
           | none => lookupD cfg.boosts "" 1)
    if o.convRoll i < rate then
      (c, true) ::
        funnelFirstPass cfg chanOf o rest
          (fun id => if id = c.customer_id then true else hasOrder id) (i + 1)
    else
      (c, false) :: funnelFirstPass cfg chanOf o rest hasOrder (i + 1)

/-- Sort key of the funnel: `sorted(carts, key=lambda x: x['created_at'])`. -/
def sortCartsByCreated (carts : List Cart) : List Cart :=
  carts.mergeSort (fun a b => a.created_at ≤ b.created_at)

/-- The ids the second pass decides to empty: the `j`-th not-converted cart is
emptied when `random.random() < emptied_prob`. -/
def emptiedIdsOf (cfg : FunnelConfig) (o : FunnelOracle)
    (abandonedPending : List Cart) : List String :=
  (List.range abandonedPending.length).filterMap fun j =>
    match abandonedPending.get? j with
    | some c => if o.emptyRoll j < cfg.emptied_prob then some c.cart_id else none
    | none => none

/-- The whole conversion-funnel block: returns the final carts (statuses set,
emptied totals zeroed), the final cart items, and the converted carts. -/
def processConversions (cfg : FunnelConfig) (chanOf : String → Option String)
    (o : FunnelOracle) (carts : List Cart) (items : List CartItem) :
    List Cart × List CartItem × List Cart :=
  let tagged := funnelFirstPass cfg chanOf o (sortCartsByCreated carts)
    (fun _ => false) 0
  let pending := (tagged.filter (fun p => !p.2)).map Prod.fst
  let emptied := emptiedIdsOf cfg o pending
  let finalCarts := tagged.map fun p =>
    if p.2 then { p.1 with status := "converted" }
    else if emptied.contains p.1.cart_id then
      { p.1 with status := "emptied", cart_total := 0 }
    else { p.1 with status := "abandoned" }
  let finalItems :=
    if items ≠ [] ∧ emptied ≠ [] then
      items.filter (fun it => !(emptied.contains it.cart_id))
    else items
  let converted := (tagged.filter (fun p => p.2)).map Prod.fst
  (finalCarts, finalItems, converted)

/-! ## Orders (`generator_orders.generate_orders`)

The order generator draws orders from the *customer pool*: it never reads
`shopping_carts` or `converted_carts` from the cache.  Cosmetic fields
(addresses, email, agent) are data copies with no control flow and are not
carried.  `order_total` is absent at creation (patched later by the
order-items stage); it is carried as a field initialised to `0`. -/

structure Order where
  order_id : String
  customer_id : String
  order_channel : String
  order_date : ℤ
  customer_tier : Option String
  clv_bucket : Option String
  payment_method : String
  shipping_speed : String
  is_expedited : Bool
  order_total : ℤ
  deriving Repr, DecidableEq

instance : Inhabited Customer :=
  ⟨{ customer_id := "", signup_date := none, signup_channel := none,
     initial_loyalty_tier := none, loyalty_tier := none, clv_bucket := none,
     is_guest := false }⟩

structure OrdersConfig where
  customer_tiers : List String
  shipping_speed_distribution : Option (List (String × ℚ))
  shipping_speeds : List String
  order_channel_distribution : List (String × ℚ)
  freq_lo : ℤ
  freq_hi : ℤ
  channel_allowed_payments : String → Option (List String)
  global_payment_method_distribution : Option (List (String × ℚ))
  payment_methods : List String
  guest_order_ratio : ℚ

/-- Oracle for one call of `_generate_orders_for_customer_list`; per-order
draws are indexed by the running `order_count`, the frequency draw by the
outer while-loop iteration.  `random.choices` with positive weights can
return any index, which `activeIdx`/`channelIdx`/... model directly. -/
structure PoolOracle where
  activeIdx : ℕ → ℕ
  fallbackIdxs : List ℕ
  freqDraw : ℕ → ℕ
  channelIdx : ℕ → ℕ
  payIdx : ℕ → ℕ
  shipIdx : ℕ → ℕ
  dateDraw : ℕ → ℕ

structure OrdersOracle where
  guest : PoolOracle
  regular : PoolOracle
  trimIdxs : List ℕ

/-- `tier_weights = {"Platinum": 5, "Gold": 4, "Silver": 2, "Bronze": 1.5,
None: 1}` with `.get(tier, 1)`. -/
def tierWeight : Option String → ℚ
  | some "Platinum" => 5
  | some "Gold" => 4
  | some "Silver" => 2
  | some "Bronze" => 3/2
  | some _ => 1
  | none => 1

/-- `tier_to_clv.get(tier, "Low")`. -/
def tierToClv : Option String → String
  | some "Silver" => "Medium"
  | some "Gold" => "High"
  | some "Platinum" => "High"
  | _ => "Low"

/-- Create the order record for `customer` at order index `i` (the running
`order_count`), mirroring the body of the inner `for` loop. -/
def mkOrder (cfg : OrdersConfig) (o : PoolOracle) (cust : Customer)
    (gStart gEnd : ℤ) (idBase i : ℕ) : Order :=
  let channel := pyChoice (cfg.order_channel_distribution.map Prod.fst) ""
    (o.channelIdx i)
  let tier : Option String := if cust.is_guest then none else cust.loyalty_tier
  let clv : Option String := if cust.is_guest then none else some (tierToClv tier)
  let payment :=
    match cfg.channel_allowed_payments channel with
    | some allowed => pyChoice allowed "" (o.payIdx i)
    | none =>
      match cfg.global_payment_method_distribution with
      | some dist => pyChoice (dist.map Prod.fst) "" (o.payIdx i)
      | none => pyChoice cfg.payment_methods "" (o.payIdx i)
  let speed :=
    match cfg.shipping_speed_distribution with
    | some dist => pyChoice (dist.map Prod.fst) "" (o.shipIdx i)
    | none => pyChoice cfg.shipping_speeds "" (o.shipIdx i)
  { order_id := "SO-" ++ toString (idBase + i)
    customer_id := cust.customer_id
    order_channel := channel
    order_date := safe_date_between gStart gEnd (o.dateDraw i)
    customer_tier := tier
    clv_bucket := clv
    payment_method := payment
    shipping_speed := speed
    is_expedited := speed ≠ "Standard"
    order_total := 0 }

/-- The inner `for _ in range(num_orders_for_this_customer)` loop: `num` has
already been clamped by `min(num, target - order_count)`, so the `break` on
reaching the target never fires inside it. -/
def makeOrdersFor (cfg : OrdersConfig) (o : PoolOracle) (cust : Customer)
    (gStart gEnd : ℤ) (idBase : ℕ) : ℕ → ℕ → List Order
  | 0, _ => []
  | num + 1, oc =>
    mkOrder cfg o cust gStart gEnd idBase oc ::
      makeOrdersFor cfg o cust gStart gEnd idBase num (oc + 1)

/-- The `while order_count < num_orders_to_generate and active_customers`
loop.  `fuel` bounds the number of outer iterations (the source has no such
bound and does not terminate when every frequency draw is 0; every
terminating source execution is reproduced by a large enough fuel). -/
def ordersWhile (cfg : OrdersConfig) (o : PoolOracle)
    (active : List Customer) (gStart gEnd : ℤ) (target idBase : ℕ) :
    ℕ → ℕ → ℕ → List Order
  | 0, _, _ => []
  | fuel + 1, oc, ci =>
    if oc < target ∧ active ≠ [] then
      let cust := (active.get? (ci % active.length)).getD default
      let num := (pyRandint cfg.freq_lo cfg.freq_hi (o.freqDraw ci)).toNat
      let num := min num (target - oc)
      makeOrdersFor cfg o cust gStart gEnd idBase num oc ++
        ordersWhile cfg o active gStart gEnd target idBase fuel (oc + num) (ci + 1)
    else []

/-- `_generate_orders_for_customer_list`.  `int(target / avg)` with
`avg = (freq_lo + freq_hi) / 2 > 0` is the floor of the non-negative exact
quotient `2 * target / (freq_lo + freq_hi)`, computed with `Int.fdiv` (the
source divides by zero when the frequency range sums to zero). -/
def generateOrdersForPool (cfg : OrdersConfig) (o : PoolOracle)
    (pool : List Customer) (gStart gEnd : ℤ) (target idBase fuel : ℕ) :
    List Order :=
  if pool = [] then []
  else
    let numUnique := max 1 (((2 * (target : ℤ)).fdiv (cfg.freq_lo + cfg.freq_hi)).toNat)
    let numUnique := min numUnique pool.length
    let weights := pool.map (fun c => tierWeight c.loyalty_tier)
    let active :=
      if weights.any (fun w => w > 0) then
        (List.range numUnique).map
          (fun j => (pool.get? (o.activeIdx j % pool.length)).getD default)
      else sampleBy (o.fallbackIdxs.take numUnique) pool
    ordersWhile cfg o active gStart gEnd target idBase fuel 0 0

/-- `generate_orders`: splits customers into regular/guests, computes the
guest/regular targets from `guest_order_ratio`, generates each pool, and
trims by `random.sample` when too many orders were produced. -/
def generate_orders (cfg : OrdersConfig) (o : OrdersOracle)
    (all_customers : List Customer) (gStart gEnd : ℤ) (num_rows fuel : ℕ) :
    Except String (List Order) :=
  if all_customers = [] then
    .error "Customer data must be provided to generate_orders."
  else
    let regular := all_customers.filter (fun c => !c.is_guest)
    let guests := all_customers.filter (fun c => c.is_guest)
    let numGuest :=
      (((num_rows : ℤ) * cfg.guest_order_ratio.num).fdiv
        (cfg.guest_order_ratio.den : ℤ)).toNat
    let numRegular := num_rows - numGuest
    let guestOrders :=
      if numGuest > 0 ∧ guests ≠ [] then
        generateOrdersForPool cfg o.guest guests gStart gEnd numGuest 0 fuel
      else []
    let regularOrders :=
      if numRegular > 0 ∧ regular ≠ [] then
        generateOrdersForPool cfg o.regular regular gStart gEnd numRegular
          guestOrders.length fuel
      else []
    let allOrders := guestOrders ++ regularOrders
    if allOrders.length > num_rows then .ok (sampleBy o.trimIdxs allOrders)
    else .ok allOrders

/-- The orchestrator's date window (`run_data_generation.main` lines
202-207): `global_end_date = datetime.now().date()` and
`global_start_date = global_end_date - order_days_back`.  `today` is the
wall-clock date — no seed controls it. -/
def globalWindow (today : ℤ) (order_days_back : ℤ) : ℤ × ℤ :=
  (today - order_days_back, today)

/-! ## Returns and return items (`generator_returns.py`)

Fields with no control flow and no claim (reason, return/refund channel,
agent, email) are not carried.  `faker_instance.unique.bothify("RET-########")`
is modelled as `"RET-" ++ toString i` with `i` the index of the return. -/

structure OrderItem where
  order_id : String
  product_id : ℕ
  product_name : String
  category : String
  quantity : ℤ
  unit_price : ℤ
  deriving Repr, DecidableEq

structure Ret where
  return_id : String
  order_id : String
  customer_id : String
  return_type : String
  return_date : ℤ
  refunded_amount : ℤ
  deriving Repr, DecidableEq

structure RetItem where
  return_item_id : ℕ
  return_id : String
  order_id : String
  product_id : ℕ
  product_name : String
  category : String
  quantity_returned : ℤ
  unit_price : ℤ
  refunded_amount : ℤ
  deriving Repr, DecidableEq

/-- Entry of `ReturnItemGenerationHelper.product_details_in_orders`. -/
structure ProdDetails where
  origQty : ℤ
  price : ℤ
  name : String
  cat : String
  deriving Repr, DecidableEq

/-- The immutable part of `ReturnItemGenerationHelper.__init__`: the
per-`(order_id, product_id)` details and the per-order product list.  The
`None in key / isinstance` guard of the source (line 26) always passes for
the typed records of the embedding. -/
structure HelperTables where
  details : String × ℕ → Option ProdDetails
  prodsPerOrder : String → List ℕ

def helperStep (st : HelperTables) (it : OrderItem) : HelperTables :=
  let key := (it.order_id, it.product_id)
  let oldQty : ℤ := match st.details key with | some d => d.origQty | none => 0
  let d : ProdDetails :=
    { origQty := oldQty + it.quantity, price := it.unit_price,
      name := it.product_name, cat := it.category }
  { details := fun k => if k = key then some d else st.details k
    prodsPerOrder := fun oid =>
      if oid = it.order_id then
        (if (st.prodsPerOrder it.order_id).contains it.product_id then
          st.prodsPerOrder it.order_id
         else st.prodsPerOrder it.order_id ++ [it.product_id])
      else st.prodsPerOrder oid }

def initHelper (items : List OrderItem) : HelperTables :=
  items.foldl helperStep ⟨fun _ => none, fun _ => []⟩

/-- Per-return random draws for `process_single_return`: `subsetDraw` and
`sampleIdxs` drive `random.randint(1, max(1, len))` / `random.sample` in
`_determine_products_to_return`, `partialU j` is the `random.uniform(0.3, 0.8)`
draw for the `j`-th product of the loop. -/
structure SingleRetOracle where
  subsetDraw : ℕ
  sampleIdxs : List ℕ
  partialU : ℕ → ℚ

/-- `ReturnItemGenerationHelper._determine_products_to_return`. -/
def determineProductsToReturn (st : HelperTables) (order_id rtype : String)
    (o : SingleRetOracle) : Except String (List ℕ) :=
  let orig := st.prodsPerOrder order_id
  if orig = [] then .error ("No order items found for order_id " ++ order_id)
  else if rtype = "Full" then .ok orig
  else if rtype = "Partial" then
    let subset_size := (pyRandint 1 (max 1 (orig.length : ℤ)) o.subsetDraw).toNat
    .ok (sampleBy (o.sampleIdxs.take subset_size) orig)
  else .error ("Invalid return_type " ++ rtype)

/-- Loop state of `process_single_return`; `rs` is the mutable
`self.returned_so_far`. -/
structure PSRState where
  items : List RetItem
  totalRefund : ℤ
  nextId : ℕ
  rs : String × ℕ → ℤ

/-- One iteration of the `for product_id in product_ids` loop of
`process_single_return`.  `round(qty * unit_price, 2)` is the identity on
cent amounts. -/
def psrStep (st : HelperTables) (ret : Ret) (o : SingleRetOracle)
    (acc : PSRState) (jpid : ℕ × ℕ) : PSRState :=
  let j := jpid.1
  let pid := jpid.2
  let key := (ret.order_id, pid)
  match st.details key with
  | none => acc
  | some d =>
    if d.origQty = 0 then acc
    else
      let already := acc.rs key
      let qtyAvail := d.origQty - already
      if qtyAvail ≤ 0 then acc
      else
        let qty :=
          if ret.return_type = "Partial" then
            min (max 1 (pyRound ((d.origQty : ℚ) * o.partialU j))) qtyAvail
          else qtyAvail
        let refunded := qty * d.price
        let item : RetItem :=
          { return_item_id := acc.nextId, return_id := ret.return_id,
            order_id := ret.order_id, product_id := pid,
            product_name := d.name, category := d.cat,
            quantity_returned := qty, unit_price := d.price,
            refunded_amount := refunded }
        { items := acc.items ++ [item], totalRefund := acc.totalRefund + refunded,
          nextId := acc.nextId + 1,
          rs := fun k => if k = key then acc.rs key + qty else acc.rs k }

/-- `ReturnItemGenerationHelper.process_single_return`; returns the items,
the (already exact, cents) rounded total refund, the next free
`return_item_id`, and the updated `returned_so_far` state. -/
def processSingleReturn (st : HelperTables) (rs : String × ℕ → ℤ) (ret : Ret)
    (startId : ℕ) (o : SingleRetOracle) :
    Except String (List RetItem × ℤ × ℕ × (String × ℕ → ℤ)) :=
  if ¬ (pyStartsWith ret.order_id "SO-" ∧ pyStartsWith ret.return_id "RET-" ∧
        (ret.return_type = "Partial" ∨ ret.return_type = "Full")) then
    .error "Invalid return entry"
  else
    match determineProductsToReturn st ret.order_id ret.return_type o with
    | .error e => .error e
    | .ok pids =>
      let res := pids.enum.foldl (psrStep st ret o)
        { items := [], totalRefund := 0, nextId := startId, rs := rs }
      .ok (res.items, res.totalRefund, res.nextId, res.rs)

/-- `order_total_map`: dict comprehension, later entries win;
`.get(order_id, 0.0)` is the default. -/
def orderTotalMap (orders : List Order) : String → ℤ :=
  orders.foldl (fun m o => fun k => if k = o.order_id then o.order_total else m k)
    (fun _ => 0)

/-- State of the per-return refund-cap filtering loop of
`generate_return_items`: kept items, capped total, per-order refunded
tracker. -/
structure CapState where
  kept : List RetItem
  totalCapped : ℤ
  tracker : String → ℤ

/-- One iteration of the `for item in items` cap loop: drop the item when the
order has no refundable budget left, shrink `quantity_returned` to
`int(remaining // unit_price)` (Python floor division, `Int.fdiv`), recompute
`refunded_amount`, and charge the tracker. -/
def capStep (totalMap : String → ℤ) (oid : String) (acc : CapState)
    (item : RetItem) : CapState :=
  let remaining := totalMap oid - acc.tracker oid
  if remaining ≤ 0 then acc
  else
    let maxQuantity := Int.fdiv remaining item.unit_price
    if maxQuantity ≤ 0 then acc
    else
      let qty := min item.quantity_returned maxQuantity
      let refunded := qty * item.unit_price
      let item2 := { item with quantity_returned := qty, refunded_amount := refunded }
      { kept := acc.kept ++ [item2], totalCapped := acc.totalCapped + refunded,
        tracker := fun k => if k = oid then acc.tracker oid + refunded else acc.tracker k }

/-- State of the `for ret in returns` loop of `generate_return_items`. -/
structure GRIState where
  allItems : List RetItem
  nextId : ℕ
  tracker : String → ℤ
  rs : String × ℕ → ℤ
  updates : List (String × ℤ)

/-- One iteration of the outer loop of `generate_return_items`.  A
`ValueError` from `process_single_return` is caught: the return's update is
set to `0` and `current_return_item_id` is left unchanged (both exceptions in
the source are raised before any state mutation). -/
def griStep (totalMap : String → ℤ) (st : HelperTables) (oSingle : ℕ → SingleRetOracle)
    (acc : GRIState) (iret : ℕ × Ret) : GRIState :=
  let ret := iret.2
  match processSingleReturn st acc.rs ret acc.nextId (oSingle iret.1) with
  | .error _ => { acc with updates := acc.updates ++ [(ret.return_id, 0)] }
  | .ok (items, _totalRefund, nextId, rs2) =>
    let cap := items.foldl (capStep totalMap ret.order_id)
      { kept := [], totalCapped := 0, tracker := acc.tracker }
    { allItems := acc.allItems ++ cap.kept, nextId := nextId,
      tracker := cap.tracker, rs := rs2,
      updates := acc.updates ++ [(ret.return_id, cap.totalCapped)] }

/-- `generate_return_items` (source lines 249-294). -/
def generate_return_items (orders : List Order) (order_items : List OrderItem)
    (returns : List Ret) (oSingle : ℕ → SingleRetOracle) :
    Except String (List RetItem × List (String × ℤ)) :=
  if returns = [] then .error "Returns must be generated before return items."
  else if order_items = [] then
    .error "Order items must be present before generating return items."
  else
    let totalMap := orderTotalMap orders
    let st := initHelper order_items
    let res := returns.enum.foldl (griStep totalMap st oSingle)
      { allItems := [], nextId := 1, tracker := fun _ => 0,
        rs := fun _ => 0, updates := [] }
    .ok (res.allItems, res.updates)

/-! ### `generate_returns` (source lines 111-246) -/

structure ReturnsConfig where
  return_rate : ℚ
  return_max_lag_days : ℤ
  category_return_rates : List (String × ℚ)

structure ReturnsOracle where
  selRoll : ℕ → ℚ
  sampleIdxs : List ℕ
  typeDraw : ℕ → ℕ
  dateDraw : ℕ → ℕ

/-- `order_id_to_categories[oid]`: the lowercased categories of the order's
items, in item order. -/
def orderCategories (items : List OrderItem) (oid : String) : List String :=
  (items.filter (fun it => it.order_id = oid)).map (fun it => pyLower it.category)

/-- `max(generator, default=dflt)`; the source takes the max over
`set(categories)`, and `max` is invariant under deduplication and iteration
order, so the max over the category list is the same value. -/
def listMaxQ (f : String → ℚ) (dflt : ℚ) : List String → ℚ
  | [] => dflt
  | h :: t => t.foldl (fun m c => max m (f c)) (f h)

def defaultReturnRate (cfg : ReturnsConfig) : ℚ :=
  lookupD cfg.category_return_rates "default" (1/5)

/-- The order's return propensity: the highest category rate present. -/
def orderPropensity (cfg : ReturnsConfig) (items : List OrderItem)
    (ord : Order) : ℚ :=
  listMaxQ (fun c => lookupD cfg.category_return_rates c (defaultReturnRate cfg))
    (defaultReturnRate cfg) (orderCategories items ord.order_id)

/-- The `returnable_orders` filter: skip orders with no items, then a
Bernoulli draw against the propensity (`selRoll i` is the `random.random()`
draw for the order at position `i`). -/
def returnableOrders (cfg : ReturnsConfig) (o : ReturnsOracle)
    (orders : List Order) (items : List OrderItem) : List Order :=
  (orders.enum.filter (fun p =>
      orderCategories items p.2.order_id ≠ [] ∧
        o.selRoll p.1 < orderPropensity cfg items p.2)).map Prod.snd

/-- `int(len(orders) * return_rate)`: `len * rate` is non-negative, so the
truncation is a floor, computed exactly as `(len * num) fdiv den` on the
reduced fraction. -/
def returnsTarget (cfg : ReturnsConfig) (orders : List Order) : ℕ :=
  (((orders.length : ℤ) * cfg.return_rate.num).fdiv (cfg.return_rate.den : ℤ)).toNat

/-- `orders_to_return`: sample down to the target when there are more
returnable orders than the target, else take them all. -/
def ordersToReturn (cfg : ReturnsConfig) (o : ReturnsOracle)
    (orders : List Order) (items : List OrderItem) : List Order :=
  let returnable := returnableOrders cfg o orders items
  let target := returnsTarget cfg orders
  if returnable.length > target then sampleBy (o.sampleIdxs.take target) returnable
  else returnable

/-- The body of the `for order in orders_to_return` loop: one return record
per selected order (there is no second-return attempt anywhere in the
source). -/
def mkReturn (cfg : ReturnsConfig) (o : ReturnsOracle) (endDate : ℤ)
    (i : ℕ) (ord : Order) : Ret :=
  let rtype := pyChoice ["Partial", "Full"] "" (o.typeDraw i)
  let daysSince := max 0 (endDate - ord.order_date)
  let maxLag := min daysSince cfg.return_max_lag_days
  let rd := ord.order_date + pyRandint 0 maxLag (o.dateDraw i)
  let rd2 := if rd > endDate then endDate else rd
  { return_id := "RET-" ++ toString i, order_id := ord.order_id,
    customer_id := ord.customer_id, return_type := rtype,
    return_date := rd2, refunded_amount := 0 }

/-- `generate_returns`: raises when no orders exist; when `order_items` is
missing it only prints a warning and returns the empty list. -/
def generate_returns (cfg : ReturnsConfig) (o : ReturnsOracle)
    (orders : List Order) (order_items : List OrderItem) (endDate : ℤ) :
    Except String (List Ret) :=
  if orders = [] then .error "Orders must be generated before returns."
  else if order_items = [] then .ok []
  else
    .ok ((ordersToReturn cfg o orders order_items).enum.map
      (fun p => mkReturn cfg o endDate p.1 p.2))

/-! ## `generator_carts.generate_shopping_carts`

`created_at` is a date (`ℤ` day number): the time-of-day attached by
`faker.time_object()` is cosmetic.  Cart ids (`faker.unique`) are assigned
positionally at the end (`"CART-" ++ toString k`), preserving uniqueness.
The `is_reactivation_cart` flag is dropped (no claim reads it).  The delay
range's upper bound and `sigma` only shape the log-normal draw, which the
oracle supplies directly; only `range[0]` (the lower clamp) appears in the
control flow.  The calendar is passed in as `monthOf` (month of a day
number) and `cohortKey` (`signup_date_str[:7]`). -/

structure CartsConfig where
  time_to_first_lo : ℤ
  time_to_first_hi : ℤ
  propensity : List (String × List (String × ℚ))
  delay_range0 : List (String × List (String × ℤ))
  retention_shocks : List (String × ℚ)
  seasonal_factors : List (ℕ × ℚ)
  reactivation_prob : ℚ
  react_lo : ℤ
  react_hi : ℤ

structure CartsOracle where
  sampleIdxs : List ℕ
  firstDelay : ℕ → ℕ
  firstFallback : ℕ → ℕ
  poisson : ℕ → ℕ
  repeatO : ℕ → RepeatOracle
  reactRoll : ℕ → ℚ
  reactDelay : ℕ → ℕ
  seasRoll : ℕ → ℚ
  seasOffset : ℕ → ℕ → ℤ

/-- `m.get(chan, m.get('default', {})).get(tier, inner.get('default', d))`. -/
def chainLookup (m : List (String × List (String × α))) (chan tier : String)
    (d : α) : α :=
  let inner := ((m.lookup chan).getD ((m.lookup "default").getD []))
  (inner.lookup tier).getD ((inner.lookup "default").getD d)

/-- Initial-session date for one sampled shopper (lines 56-75): registered
customers start at `signup_date + randint(first-cart delay range)` when that
lands inside the window, otherwise (and for guests) at a uniform date in the
window. -/
def initialCartDate (cfg : CartsConfig) (o : CartsOracle) (gStart gEnd : ℤ)
    (j : ℕ) (c : Customer) : ℤ :=
  match c.signup_date with
  | some sd =>
    let potential := sd + pyRandint cfg.time_to_first_lo cfg.time_to_first_hi
      (o.firstDelay j)
    if gStart ≤ potential ∧ potential ≤ gEnd then potential
    else safe_date_between gStart gEnd (o.firstFallback j)
  | none => safe_date_between gStart gEnd (o.firstFallback j)

/-- Phase 2 for one customer (index `j`): the Poisson-many organic repeat
visits (via `repeatVisitLoop`) followed by the independent reactivation
trial.  Returns the new cart dates.  The segment propensity λ and the cohort
retention shocks only parameterize the rate of the Poisson draw, which the
oracle (`o.poisson j`) supplies directly, so they do not appear in the
control flow. -/
def customerRepeatCarts (cfg : CartsConfig) (o : CartsOracle)
    (gEnd : ℤ) (j : ℕ) (c : Customer) (initialDate : ℤ) : List ℤ :=
  let tier := c.initial_loyalty_tier.getD "default"
  let chan := c.signup_channel.getD "default"
  let range0 := chainLookup cfg.delay_range0 chan tier 30
  let n := o.poisson j
  let organic := (repeatVisitLoop (o.repeatO j) range0 gEnd n 0 initialDate).dates
  let react :=
    if o.reactRoll j < cfg.reactivation_prob then
      let rdate := initialDate + pyRandint cfg.react_lo cfg.react_hi (o.reactDelay j)
      if rdate ≤ gEnd then [rdate] else []
    else []
  organic ++ react

/-- Phase 3: seasonal amplification, applied only to customers that are
already repeaters in the pre-seasonal cart set.  Base carts are
`(customer_id, date)` pairs; `seasOffset` is the (integer-day effect of the)
small random clone offset, validity-checked against the month and the window
as in the source. -/
def seasonalClones (cfg : CartsConfig) (o : CartsOracle) (monthOf : ℤ → ℕ)
    (gEnd : ℤ) (base : List (String × ℤ)) : List (String × ℤ) :=
  let counts : String → ℕ := fun cid => (base.filter (fun p => p.1 = cid)).length
  (base.enum.filterMap (fun kp =>
    let cid := kp.2.1
    let dt := kp.2.2
    if counts cid ≤ 1 then none
    else
      let mult := lookupD cfg.seasonal_factors (monthOf dt) 1
      if mult > 1 then
        let nbase := Int.toNat ⌊mult - 1⌋
        let probExtra := mult - (nbase + 1 : ℕ)
        let numToAdd := nbase + (if o.seasRoll kp.1 < probExtra then 1 else 0)
        some ((List.range numToAdd).filterMap fun t =>
          let newDt := dt + o.seasOffset kp.1 t
          if monthOf newDt = monthOf dt ∧ newDt ≤ gEnd then some (cid, newDt)
          else none)
      else none)).flatten

/-- `generate_shopping_carts`: precondition guard, initial sessions (sample
without replacement), per-customer repeat/reactivation simulation, seasonal
amplification; cart records are materialised at the end. -/
def generate_shopping_carts (cfg : CartsConfig) (o : CartsOracle)
    (monthOf : ℤ → ℕ) (customers : List Customer)
    (gStart gEnd : ℤ) (num_rows : ℕ) : Except String (List Cart) :=
  if customers = [] then
    .error "Customers must be generated before shopping carts."
  else
    let numInitial := min num_rows customers.length
    let shoppers := sampleBy (o.sampleIdxs.take numInitial) customers
    let initial : List (Customer × ℤ) := shoppers.enum.map
      (fun p => (p.2, initialCartDate cfg o gStart gEnd p.1 p.2))
    let withRepeats : List (String × ℤ) :=
      (initial.enum.map (fun p =>
        (p.2.1.customer_id, p.2.2) ::
          (customerRepeatCarts cfg o gEnd p.1 p.2.1 p.2.2).map
            (fun d => (p.2.1.customer_id, d)))).flatten
    let base := withRepeats
    let allPairs :=
      if cfg.seasonal_factors ≠ [] then
        base ++ seasonalClones cfg o monthOf gEnd base
      else base
    .ok (allPairs.enum.map fun kp =>
      { cart_id := "CART-" ++ toString kp.1, customer_id := kp.2.1,
        created_at := kp.2.2, updated_at := kp.2.2, status := "open",
        cart_total := 0 })

/-! ## Earned-status post-processor
(`run_data_generation._calculate_and_apply_earned_status`)

The generated (and order-items-patched) order dicts carry exactly these
numeric money columns; there is no `gross_total` key anywhere in the
pipeline, so the source's `orders_df.groupby('customer_id')['gross_total']`
raises a pandas `KeyError`, which nothing in `main` catches. -/

/-- The numeric spend columns actually present on order records
(`generator_orders.generate_orders` plus the order-items patch
`{order_total, shipping_cost, total_items}`). -/
def orderMoneyColumn : String → Option (Order → ℤ)
  | "order_total" => some (fun ord => ord.order_total)
  | _ => none

/-- `get_earned_value`: scan thresholds sorted descending by value (stable),
first `spend ≥ min_spend` wins, else `None`. -/
def getEarnedValue (spend : ℤ) (thresholds : List (String × ℤ)) :
    Option String :=
  ((thresholds.mergeSort (fun a b => b.2 ≤ a.2)).find?
    (fun p => spend ≥ p.2)).map Prod.fst

/-- The registered-customers update of the post-processor, given the
per-customer spend (the `groupby(...).sum()` of column `col`, with
`.fillna(0)` for customers without orders); guests are re-appended
unchanged (`pd.concat`). -/
def applyEarnedStatus (orders : List Order) (col : Order → ℤ)
    (tierThr clvThr : List (String × ℤ)) (customers : List Customer) :
    List Customer :=
  let spendOf : String → ℤ := fun cid =>
    ((orders.filter (fun ord => ord.customer_id = cid)).map col).sum
  let regs := customers.filter (fun c => !c.is_guest)
  let guests := customers.filter (fun c => c.is_guest)
  (regs.map fun c =>
    let spend := spendOf c.customer_id
    let c1 := if tierThr ≠ [] then
        { c with loyalty_tier := getEarnedValue spend tierThr } else c
    if clvThr ≠ [] then { c1 with clv_bucket := getEarnedValue spend clvThr }
    else c1) ++ guests

/-- `_calculate_and_apply_earned_status` (lines 114-169): skips when no
thresholds or no data; otherwise reads the `gross_total` column of the
orders frame, which does not exist — a `KeyError`. -/
def calculate_and_apply_earned_status (orders : List Order)
    (customers : List Customer) (tierThr clvThr : List (String × ℤ)) :
    Except String (List Customer) :=
  if tierThr = [] ∧ clvThr = [] then .ok customers
  else if orders = [] ∨ customers = [] then .ok customers
  else
    match orderMoneyColumn "gross_total" with
    | none => .error "KeyError: Column not found: gross_total"
    | some col => .ok (applyEarnedStatus orders col tierThr clvThr customers)

/-! ## Concrete instances used by counterexamples and witnesses -/

/-- A registered (non-guest) customer. -/
def custW : Customer :=
  ⟨"CUST-1", some 0, some "Website", some "Silver", some "Silver", some "Medium", false⟩

/-- A Web-channel order with `order_total` $50.00 placed on day 50. -/
def ordW : Order :=
  ⟨"SO-1", "CUST-1", "Web", 50, some "Silver", some "Medium", "Credit Card",
   "Standard", false, 5000⟩

/-- An order item of `ordW`: 2 units at $10.00. -/
def itemW : OrderItem := ⟨"SO-1", 7, "Widget", "Widgets", 2, 1000⟩

/-- Returns config: global `return_rate = 1.0`, max lag 30 days, category
rate 1.0 for `widgets` (every order is selected for a return). -/
def retCfg : ReturnsConfig := ⟨1, 30, [("widgets", 1)]⟩

/-- Returns oracle: the selection roll is `0.0` (always below the
propensity), the return-type draw picks `"Full"`, the date draw is 0. -/
def retOracle : ReturnsOracle := ⟨fun _ => 0, [], fun _ => 1, fun _ => 0⟩

/-- The single return that `generate_returns retCfg retOracle [ordW] [itemW]
100` produces. -/
def retW : Ret := ⟨"RET-0", "SO-1", "CUST-1", "Full", 50, 0⟩

/-- Per-return draws for `generate_return_items` (a full return consumes
none of them). -/
def oracleS : ℕ → SingleRetOracle := fun _ => ⟨0, [0], fun _ => 1/2⟩

/-- The return item `generate_return_items [ordW] [itemW] [retW] oracleS`
produces: both units refunded, $20.00. -/
def retItemW : RetItem :=
  ⟨1, "RET-0", "SO-1", 7, "Widget", "Widgets", 2, 1000, 2000⟩

/-- Orders config with the source defaults (`order_channel_distribution`
`{Web: 0.85, Phone: 0.15}` narrowed to its support on the Web draw,
frequency range `[1, 3]`, no guest orders). -/
def ordCfg : OrdersConfig :=
  { customer_tiers := ["Bronze", "Silver", "Gold", "Platinum"]
    shipping_speed_distribution := none
    shipping_speeds := ["Standard"]
    order_channel_distribution := [("Web", 1)]
    freq_lo := 1
    freq_hi := 3
    channel_allowed_payments := fun _ => none
    global_payment_method_distribution := none
    payment_methods := ["Credit Card"]
    guest_order_ratio := 0 }

/-- All-zero draws for one order pool. -/
def poolO : PoolOracle :=
  ⟨fun _ => 0, [], fun _ => 0, fun _ => 0, fun _ => 0, fun _ => 0, fun _ => 0⟩

def ordO : OrdersOracle := ⟨poolO, poolO, []⟩

/-- Funnel config: conversion rate 1 (the single cart converts), no boosts,
emptied probability 0. -/
def funCfg : FunnelConfig := ⟨1, [], 0⟩

def funO : FunnelOracle := ⟨fun _ => 0, fun _ => 1⟩

/-- A cart created on day 10 holding $20.00. -/
def cartA : Cart := ⟨"CART-0", "CUST-1", 10, 10, "open", 2000⟩

/-- A cart item of `cartA`. -/
def cartItemB : CartItem := ⟨1, "CART-0", 7, 1, 1000⟩

/-- Funnel config that empties every non-converted cart
(conversion rate 0, emptied probability 1). -/
def funCfgE : FunnelConfig := ⟨0, [], 1⟩

def funOE : FunnelOracle := ⟨fun _ => 1, fun _ => 0⟩

/-! ## Measures used by the refund/quantity invariants -/

/-- Sum of `refunded_amount` over the return items of order `oid`. -/
def sumRefunds (xs : List RetItem) (oid : String) : ℤ :=
  ((xs.filter (fun it => it.order_id = oid)).map RetItem.refunded_amount).sum

/-- Sum of `quantity_returned` over the return items of pair `k`. -/
def sumQtyRet (xs : List RetItem) (k : String × ℕ) : ℤ :=
  ((xs.filter (fun it => (it.order_id, it.product_id) = k)).map
    RetItem.quantity_returned).sum

/-- Total quantity of pair `k` ordered in the order-items table. -/
def sumQtyOrdered (xs : List OrderItem) (k : String × ℕ) : ℤ :=
  ((xs.filter (fun it => (it.order_id, it.product_id) = k)).map
    OrderItem.quantity).sum

/-- The original quantity the helper records for key `k` (0 when absent). -/
def origQtyOf (st : HelperTables) (k : String × ℕ) : ℤ :=
  match st.details k with
  | some d => d.origQty
  | none => 0

/-! ## Claim theorems -/

/-- The status/total/items shape produced by the funnel: any cart marked
`"emptied"` got its total zeroed and its id is in the emptied set, whose
items are filtered out. -/
theorem funnelApplyEmptiedInv (emp : List String) (tagged : List (Cart × Bool))
    (items : List CartItem) :
    ∀ c ∈ tagged.map (fun p =>
        if p.2 then { p.1 with status := "converted" }
        else if emp.contains p.1.cart_id then
          { p.1 with status := "emptied", cart_total := 0 }
        else { p.1 with status := "abandoned" }),
      c.status = "emptied" →
        c.cart_total = 0 ∧
        ∀ it ∈ (if items ≠ [] ∧ emp ≠ [] then
            items.filter (fun it => !(emp.contains it.cart_id)) else items),
          it.cart_id ≠ c.cart_id := by
  intro c hc hst
  rcases List.mem_map.1 hc with ⟨p, hp, rfl⟩
  by_cases h1 : p.2 = true
  · rw [if_pos h1] at hst
    dsimp only at hst
    exact absurd hst (by decide)
  · rw [if_neg h1] at hst ⊢
    by_cases h2 : emp.contains p.1.cart_id = true
    · rw [if_pos h2] at hst ⊢
      refine ⟨rfl, ?_⟩
      intro it hit hcid
      by_cases h3 : items ≠ [] ∧ emp ≠ []
      · rw [if_pos h3] at hit
        rcases List.mem_filter.1 hit with ⟨_, hkeep⟩
        dsimp only at hcid
        rw [hcid] at hkeep
        rw [h2] at hkeep
        exact absurd hkeep (by decide)
      · rw [if_neg h3] at hit
        rcases not_and_or.1 h3 with h4 | h4
        · rw [not_not.1 h4] at hit
          exact (List.not_mem_nil it) hit
        · rw [not_not.1 h4] at h2
          simp at h2
    · rw [if_neg h2] at hst
      dsimp only at hst
      exact absurd hst (by decide)

/-- C2: in the final tables produced by the conversion funnel, every cart
with status `"emptied"` has `cart_total = 0` and no row of the cart-items
table references its `cart_id`. -/
theorem C2_emptied_carts_have_zero_total_and_no_items
    (cfg : FunnelConfig) (chanOf : String → Option String) (o : FunnelOracle)
    (carts : List Cart) (items : List CartItem) :
    ∀ c ∈ (processConversions cfg chanOf o carts items).1,
      c.status = "emptied" →
        c.cart_total = 0 ∧
        ∀ it ∈ (processConversions cfg chanOf o carts items).2.1,
          it.cart_id ≠ c.cart_id := by
  unfold processConversions
  dsimp only
  exact funnelApplyEmptiedInv _ _ _

/-- Witness for `C2_emptied_carts_have_zero_total_and_no_items`: with
conversion rate 0 and emptied probability 1, `cartA` is emptied — its total
is zeroed and its item is gone from the cart-items table. -/
theorem C2_emptied_carts_witness :
    ({ cartA with status := "emptied", cart_total := 0 } : Cart).cart_total = 0 ∧
    ∀ it ∈ (processConversions funCfgE (fun _ => none) funOE
        [cartA] [cartItemB]).2.1,
      it.cart_id ≠ ({ cartA with status := "emptied", cart_total := 0 } : Cart).cart_id :=
  C2_emptied_carts_have_zero_total_and_no_items funCfgE (fun _ => none) funOE
    [cartA] [cartItemB] { cartA with status := "emptied", cart_total := 0 }
    (by
      have h : (processConversions funCfgE (fun _ => none) funOE
          [cartA] [cartItemB]).1 =
          [{ cartA with status := "emptied", cart_total := 0 }] := by
        norm_num [processConversions, funnelFirstPass, sortCartsByCreated,
          emptiedIdsOf, funCfgE, funOE, cartA, cartItemB, lookupD]
      rw [h]
      exact List.mem_singleton.2 rfl)
    (by rfl)

/-- C7 counterexample: with the state of the source at the start of a repeat
visit being `last_cart_date = global_end_date` (time budget zero) and a
log-normal delay that overshoots, the Poisson-drawn count is 1 but zero
repeat carts are created — the visit *is* dropped (`break`), refuting "the
number of repeat carts created equals the Poisson-drawn visit count". -/
theorem C7_counterexample_visit_dropped :
    (repeatVisitLoop ⟨fun _ => 1000, fun _ => 0⟩ 30 100 1 0 100).dates.length = 0 ∧
    (repeatVisitLoop ⟨fun _ => 1000, fun _ => 0⟩ 30 100 1 0 100).broke = true := by
  constructor <;> rfl

/-- C7 (amended): in the organic repeat-visit loop, an overshooting delay is
re-drawn uniformly inside the remaining window — a visit is only dropped
(together with its successors, via `break`) when the customer's remaining
time budget is already exhausted, i.e. when the last cart date has reached
the simulation end.  Hence: if the loop did not break, the number of repeat
carts equals the Poisson-drawn count `n`; and if it broke, the last cart
date had reached `endDate`. -/
theorem C7_visits_kept_while_budget_remains
    (o : RepeatOracle) (range0 endDate : ℤ) :
    ∀ (n i : ℕ) (last : ℤ),
      ((repeatVisitLoop o range0 endDate n i last).broke = false →
        (repeatVisitLoop o range0 endDate n i last).dates.length = n) ∧
      ((repeatVisitLoop o range0 endDate n i last).broke = true →
        endDate ≤ (repeatVisitLoop o range0 endDate n i last).lastDate) := by
  intro n
  induction n with
  | zero =>
    intro i last
    refine ⟨fun _ => rfl, fun h => ?_⟩
    simp [repeatVisitLoop] at h
  | succ n ih =>
    intro i last
    simp only [repeatVisitLoop]
    by_cases h1 : last + max range0 ((o.rawDelay i : ℤ)) > endDate
    · simp only [h1, if_true]
      by_cases h2 : endDate - last > 0
      · simp only [h2, if_true]
        refine ⟨fun hb => ?_, fun hb => ?_⟩
        · simpa using (ih (i + 1) _).1 (by simpa using hb)
        · exact (ih (i + 1) _).2 (by simpa using hb)
      · simp only [h2, if_false]
        refine ⟨fun hb => by simp at hb, fun _ => ?_⟩
        simpa using le_of_not_lt h2
    · simp only [h1, if_false]
      refine ⟨fun hb => ?_, fun hb => ?_⟩
      · simpa using (ih (i + 1) _).1 (by simpa using hb)
      · exact (ih (i + 1) _).2 (by simpa using hb)

/-- Witness for `C7_visits_kept_while_budget_remains`: with two visits and
time remaining, both overshooting delays are re-drawn into the window and
both carts are created. -/
theorem C7_visits_kept_witness :
    (repeatVisitLoop ⟨fun _ => 1000, fun _ => 3⟩ 30 100 2 0 0).dates.length = 2 :=
  (C7_visits_kept_while_budget_remains ⟨fun _ => 1000, fun _ => 3⟩ 30 100 2 0 0).1
    (by rfl)

/-- C1: the orders table is not derived from converted carts.  At this
concrete input the funnel classifies exactly one cart (created on day 10) as
converted, while `generate_orders` — which never reads the carts — produces
two orders, both dated by its own uniform draw (day 40): there is no 1:1
mapping and `order_date` does not equal the converted cart's `created_at`.
The repository's own QA check (`qa_tests.validate_conversion_funnel`) flags
exactly this as a funnel-inconsistency error. -/
theorem C1_orders_not_derived_from_converted_carts :
    ((processConversions funCfg (fun _ => none) funO [cartA] []).2.2).length = 1 ∧
    (generate_orders ordCfg ordO [custW] 40 100 2 9).map List.length = .ok 2 ∧
    (generate_orders ordCfg ordO [custW] 40 100 2 9).map
      (fun os => os.map Order.order_date) = .ok [40, 40] ∧
    cartA.created_at = 10 := by
  refine ⟨?_, by rfl, by rfl, by rfl⟩
  simp [processConversions, funnelFirstPass, sortCartsByCreated, funCfg, funO,
    cartA, lookupD]

/-- C6: the pipeline's outputs depend on the wall clock, which no seed
fixes: with the *identical* pseudorandom stream and identical configuration,
running the orders stage on day 100 and on day 200 (the window being
`globalWindow today 60`, exactly as `main` computes it from
`datetime.now()`) yields different tables.  `Config.faker_seed` is parsed
but never applied, and neither `random` nor `Faker` is ever seeded. -/
theorem C6_output_depends_on_wall_clock :
    generate_orders ordCfg ordO [custW] (globalWindow 100 60).1
        (globalWindow 100 60).2 1 9 ≠
      generate_orders ordCfg ordO [custW] (globalWindow 200 60).1
        (globalWindow 200 60).2 1 9 := by
  intro h
  have h2 := congrArg (Except.map (fun os => os.map Order.order_date)) h
  rw [show (generate_orders ordCfg ordO [custW] (globalWindow 100 60).1
      (globalWindow 100 60).2 1 9).map (fun os => os.map Order.order_date) =
      .ok [40] from rfl] at h2
  rw [show (generate_orders ordCfg ordO [custW] (globalWindow 200 60).1
      (globalWindow 200 60).2 1 9).map (fun os => os.map Order.order_date) =
      .ok [140] from rfl] at h2
  simp at h2

/-- C8: the earned-status post-processor reads the `gross_total` column of
the orders frame, but generated (and patched) orders only carry
`order_total` — with thresholds configured and non-empty data the function
raises a pandas `KeyError`, which `main` does not catch. -/
theorem C8_earned_status_keyerror_on_gross_total :
    calculate_and_apply_earned_status [ordW] [custW] [("Silver", 10000)] [] =
      .error "KeyError: Column not found: gross_total" := by
  rfl

/-- C9 counterexample: a stage whose required upstream data is absent but
which does *not* raise: `generate_returns` with orders present and
`order_items` missing from the cache only prints a warning and returns the
empty list (no exception, an empty output). -/
theorem C9_returns_without_order_items_does_not_raise :
    generate_returns retCfg retOracle [ordW] [] 100 = .ok [] := by
  rfl

/-- C9 (amended): the enumerated precondition guards do all raise
immediately: carts with no customers, returns with no orders, return items
with no returns, and return items with no order items; but (see the
counterexample) returns with orders and no order items is the one
upstream-absence that returns `[]` instead of raising. -/
theorem C9_missing_upstream_guards_raise
    (cfgC : CartsConfig) (oC : CartsOracle) (monthOf : ℤ → ℕ)
    (gs ge : ℤ) (n : ℕ) (cfgR : ReturnsConfig) (oR : ReturnsOracle)
    (items : List OrderItem) (e : ℤ) (orders : List Order)
    (items2 : List OrderItem) (oS : ℕ → SingleRetOracle) (rets : List Ret)
    (orders2 : List Order) (oS2 : ℕ → SingleRetOracle)
    (hrets : rets ≠ []) :
    generate_shopping_carts cfgC oC monthOf [] gs ge n =
      .error "Customers must be generated before shopping carts." ∧
    generate_returns cfgR oR [] items e =
      .error "Orders must be generated before returns." ∧
    generate_return_items orders items2 [] oS =
      .error "Returns must be generated before return items." ∧
    generate_return_items orders2 [] rets oS2 =
      .error "Order items must be present before generating return items." := by
  refine ⟨?_, ?_, ?_, ?_⟩
  · rw [generate_shopping_carts, if_pos rfl]
  · rw [generate_returns, if_pos rfl]
  · rw [generate_return_items, if_pos rfl]
  · rw [generate_return_items, if_neg hrets, if_pos rfl]

/-- Witness for `C9_missing_upstream_guards_raise` at concrete inputs. -/
theorem C9_missing_upstream_guards_raise_witness :
    generate_shopping_carts
        ⟨1, 30, [], [], [], [], 0, 180, 365⟩
        ⟨[], fun _ => 0, fun _ => 0, fun _ => 0, fun _ => ⟨fun _ => 0, fun _ => 0⟩,
         fun _ => 0, fun _ => 0, fun _ => 0, fun _ _ => 0⟩
        (fun _ => 0) [] 0 100 5 =
      .error "Customers must be generated before shopping carts." ∧
    generate_return_items [] [] [retW] oracleS =
      .error "Order items must be present before generating return items." := by
  have h := C9_missing_upstream_guards_raise
    ⟨1, 30, [], [], [], [], 0, 180, 365⟩
    ⟨[], fun _ => 0, fun _ => 0, fun _ => 0, fun _ => ⟨fun _ => 0, fun _ => 0⟩,
     fun _ => 0, fun _ => 0, fun _ => 0, fun _ _ => 0⟩
    (fun _ => 0) 0 100 5 retCfg retOracle [] 0 [] [] oracleS [retW] [] oracleS
    (by simp)
  exact ⟨h.1, h.2.2.2⟩

/-- C3 counterexample: a single Web-channel order that is certainly selected
for a return (global `return_rate = 1.0` and category rate 1.0, the closest
the code offers to the claim's `return_rate_by_signup_channel = {"Web": 1.0}`)
produces exactly **one** return, not two: `generate_returns` contains no
second-return attempt and no `multi_return_probability` parameter exists
anywhere in the source. -/
theorem C3_single_order_yields_one_return_not_two :
    (generate_returns retCfg retOracle [ordW] [itemW] 100).map List.length =
      .ok 1 := by
  rfl

/-- C3 (amended): `generate_returns` emits exactly one return per selected
order — the `i`-th return is `mkReturn` of the `i`-th order of
`orders_to_return`, carrying that order's id; there is no second-return
attempt for any order. -/
theorem C3_one_return_per_selected_order (cfg : ReturnsConfig)
    (o : ReturnsOracle) (orders : List Order) (items : List OrderItem)
    (endDate : ℤ) (h1 : orders ≠ []) (h2 : items ≠ []) :
    ∃ rets, generate_returns cfg o orders items endDate = .ok rets ∧
      rets.length = (ordersToReturn cfg o orders items).length ∧
      ∀ i r, rets.get? i = some r →
        ∃ ord, (ordersToReturn cfg o orders items).get? i = some ord ∧
          r.order_id = ord.order_id ∧ r = mkReturn cfg o endDate i ord := by
  refine ⟨(ordersToReturn cfg o orders items).enum.map
    (fun p => mkReturn cfg o endDate p.1 p.2), ?_, ?_, ?_⟩
  · unfold generate_returns
    rw [if_neg h1, if_neg h2]
  · rw [List.length_map, List.enum_length]
  · intro i r hr
    rw [List.get?_map] at hr
    cases he : (ordersToReturn cfg o orders items).enum.get? i with
    | none => rw [he] at hr; exact absurd hr (by simp)
    | some p =>
      rw [he] at hr
      rw [List.get?_enum] at he
      rcases Option.map_eq_some'.1 he with ⟨ord, hord, hp⟩
      refine ⟨ord, hord, ?_, ?_⟩
      · have : p.1 = i ∧ p.2 = ord := by
          constructor <;> rw [← hp]
        rcases this with ⟨hp1, hp2⟩
        simp only [Option.map_some'] at hr
        rw [← Option.some.injEq] at hr
        cases hr
        rw [hp1, hp2]
        rfl
      · have hp1 : p.1 = i := by rw [← hp]
        have hp2 : p.2 = ord := by rw [← hp]
        simp only [Option.map_some'] at hr
        cases hr
        rw [hp1, hp2]

/-- Witness for `C3_one_return_per_selected_order` at the concrete
one-Web-order input. -/
theorem C3_one_return_per_selected_order_witness :
    ∃ rets, generate_returns retCfg retOracle [ordW] [itemW] 100 = .ok rets ∧
      rets.length = (ordersToReturn retCfg retOracle [ordW] [itemW]).length ∧
      ∀ i r, rets.get? i = some r →
        ∃ ord, (ordersToReturn retCfg retOracle [ordW] [itemW]).get? i = some ord ∧
          r.order_id = ord.order_id ∧ r = mkReturn retCfg retOracle 100 i ord :=
  C3_one_return_per_selected_order retCfg retOracle [ordW] [itemW] 100
    (by simp) (by simp)

/-! ### Bookkeeping lemmas for the return-item invariants -/

theorem sumRefunds_append (xs ys : List RetItem) (oid : String) :
    sumRefunds (xs ++ ys) oid = sumRefunds xs oid + sumRefunds ys oid := by
  simp [sumRefunds, List.filter_append]

theorem sumRefunds_single (it : RetItem) (oid : String) :
    sumRefunds [it] oid = if it.order_id = oid then it.refunded_amount else 0 := by
  by_cases h : it.order_id = oid <;> simp [sumRefunds, h]

theorem sumQtyRet_append (xs ys : List RetItem) (k : String × ℕ) :
    sumQtyRet (xs ++ ys) k = sumQtyRet xs k + sumQtyRet ys k := by
  simp [sumQtyRet, List.filter_append]

theorem sumQtyRet_single (it : RetItem) (k : String × ℕ) :
    sumQtyRet [it] k =
      if (it.order_id, it.product_id) = k then it.quantity_returned else 0 := by
  by_cases h : (it.order_id, it.product_id) = k <;> simp [sumQtyRet, h]

theorem sumQtyRet_nonneg (xs : List RetItem) (k : String × ℕ)
    (h : ∀ it ∈ xs, 0 ≤ it.quantity_returned) : 0 ≤ sumQtyRet xs k := by
  refine List.sum_nonneg ?_
  intro q hq
  rcases List.mem_map.1 hq with ⟨it, hit, rfl⟩
  exact h it (List.mem_of_mem_filter hit)

theorem sumQtyOrdered_cons (it : OrderItem) (xs : List OrderItem) (k : String × ℕ) :
    sumQtyOrdered (it :: xs) k =
      (if (it.order_id, it.product_id) = k then it.quantity else 0) +
        sumQtyOrdered xs k := by
  by_cases h : (it.order_id, it.product_id) = k <;>
    simp [sumQtyOrdered, h]

theorem sumQtyOrdered_nonneg (xs : List OrderItem) (k : String × ℕ)
    (h : ∀ it ∈ xs, 0 ≤ it.quantity) : 0 ≤ sumQtyOrdered xs k := by
  refine List.sum_nonneg ?_
  intro q hq
  rcases List.mem_map.1 hq with ⟨it, hit, rfl⟩
  exact h it (List.mem_of_mem_filter hit)

/-! ### Helper-table lemmas (`ReturnItemGenerationHelper.__init__`) -/

theorem helperStep_details (st : HelperTables) (it : OrderItem)
    (k : String × ℕ) (d : ProdDetails)
    (h : (helperStep st it).details k = some d) :
    d.price = it.unit_price ∨ st.details k = some d := by
  unfold helperStep at h
  dsimp only at h
  by_cases hk : k = (it.order_id, it.product_id)
  · rw [if_pos hk] at h
    cases h
    left
    rfl
  · rw [if_neg hk] at h
    right
    exact h

theorem foldl_helperStep_price (l : List OrderItem) :
    ∀ st : HelperTables, (∀ k d, st.details k = some d → 0 < d.price) →
      (∀ it ∈ l, 0 < it.unit_price) →
      ∀ k d, (l.foldl helperStep st).details k = some d → 0 < d.price := by
  induction l with
  | nil => intro st hst _ k d h; exact hst k d h
  | cons it rest ih =>
    intro st hst hl k d h
    refine ih (helperStep st it) ?_
      (fun x hx => hl x (List.mem_cons_of_mem _ hx)) k d h
    intro k2 d2 h2
    rcases helperStep_details st it k2 d2 h2 with h3 | h3
    · rw [h3]; exact hl it (List.mem_cons_self it rest)
    · exact hst k2 d2 h3

theorem initHelper_price (items : List OrderItem)
    (hp : ∀ it ∈ items, 0 < it.unit_price) :
    ∀ k d, (initHelper items).details k = some d → 0 < d.price := by
  refine foldl_helperStep_price items _ ?_ hp
  intro k d h
  exact absurd h (by simp)

theorem origQtyOf_helperStep (st : HelperTables) (it : OrderItem)
    (k : String × ℕ) :
    origQtyOf (helperStep st it) k =
      origQtyOf st k +
        (if k = (it.order_id, it.product_id) then it.quantity else 0) := by
  unfold origQtyOf helperStep
  dsimp only
  by_cases hk : k = (it.order_id, it.product_id)
  · rw [if_pos hk, if_pos hk, hk]
  · rw [if_neg hk, if_neg hk]
    cases hd : st.details k <;> simp [hd]

theorem origQtyOf_foldl (l : List OrderItem) :
    ∀ (st : HelperTables) (k : String × ℕ),
      origQtyOf (l.foldl helperStep st) k = origQtyOf st k + sumQtyOrdered l k := by
  induction l with
  | nil => intro st k; simp [sumQtyOrdered]
  | cons it rest ih =>
    intro st k
    rw [List.foldl_cons, ih, origQtyOf_helperStep, sumQtyOrdered_cons]
    by_cases hk : k = (it.order_id, it.product_id)
    · rw [if_pos hk, if_pos (by rw [hk])]
      ring
    · rw [if_neg hk, if_neg (fun h => hk (by rw [h]))]
      ring

theorem initHelper_origQty (items : List OrderItem) (k : String × ℕ) :
    origQtyOf (initHelper items) k = sumQtyOrdered items k := by
  unfold initHelper
  rw [origQtyOf_foldl]
  simp [origQtyOf]

/-! ### `process_single_return` invariants -/

theorem psrStep_cases (st : HelperTables) (ret : Ret) (o : SingleRetOracle)
    (acc : PSRState) (jp : ℕ × ℕ) :
    psrStep st ret o acc jp = acc ∨
    ∃ d qty, st.details (ret.order_id, jp.2) = some d ∧ 1 ≤ qty ∧
      acc.rs (ret.order_id, jp.2) + qty ≤ d.origQty ∧
      psrStep st ret o acc jp =
        { items := acc.items ++
            [{ return_item_id := acc.nextId, return_id := ret.return_id,
               order_id := ret.order_id, product_id := jp.2,
               product_name := d.name, category := d.cat,
               quantity_returned := qty, unit_price := d.price,
               refunded_amount := qty * d.price }],
          totalRefund := acc.totalRefund + qty * d.price,
          nextId := acc.nextId + 1,
          rs := fun k => if k = (ret.order_id, jp.2) then
              acc.rs (ret.order_id, jp.2) + qty
            else acc.rs k } := by
  unfold psrStep
  dsimp only
  cases hd : st.details (ret.order_id, jp.2) with
  | none => left; rfl
  | some d =>
    dsimp only
    by_cases h0 : d.origQty = 0
    · rw [if_pos h0]
      left; rfl
    · rw [if_neg h0]
      by_cases h1 : d.origQty - acc.rs (ret.order_id, jp.2) ≤ 0
      · rw [if_pos h1]
        left; rfl
      · rw [if_neg h1]
        right
        refine ⟨d,
          (if ret.return_type = "Partial" then
            min (max 1 (pyRound ((d.origQty : ℚ) * o.partialU jp.1)))
              (d.origQty - acc.rs (ret.order_id, jp.2))
          else d.origQty - acc.rs (ret.order_id, jp.2)), rfl, ?_, ?_, rfl⟩
        · by_cases hp : ret.return_type = "Partial"
          · rw [if_pos hp]
            exact le_min (le_max_left 1 _) (by omega)
          · rw [if_neg hp]
            omega
        · by_cases hp : ret.return_type = "Partial"
          · rw [if_pos hp]
            have := min_le_right
              (max 1 (pyRound ((d.origQty : ℚ) * o.partialU jp.1)))
              (d.origQty - acc.rs (ret.order_id, jp.2))
            omega
          · rw [if_neg hp]
            omega

theorem psrFold_inv (st : HelperTables) (ret : Ret) (o : SingleRetOracle)
    (jps : List (ℕ × ℕ)) :
    ∀ acc : PSRState,
      (∀ it ∈ (jps.foldl (psrStep st ret o) acc).items,
          it ∈ acc.items ∨
            (it.order_id = ret.order_id ∧ it.return_id = ret.return_id ∧
             1 ≤ it.quantity_returned ∧
             ∃ d, st.details (ret.order_id, it.product_id) = some d ∧
               it.unit_price = d.price)) ∧
      (∀ k, (jps.foldl (psrStep st ret o) acc).rs k -
          sumQtyRet (jps.foldl (psrStep st ret o) acc).items k =
          acc.rs k - sumQtyRet acc.items k) ∧
      ((∀ k, acc.rs k ≤ origQtyOf st k) →
        ∀ k, (jps.foldl (psrStep st ret o) acc).rs k ≤ origQtyOf st k) := by
  induction jps with
  | nil => exact fun acc => ⟨fun it h => .inl h, fun k => rfl, fun h k => h k⟩
  | cons jp rest ih =>
    intro acc
    rw [List.foldl_cons]
    rcases psrStep_cases st ret o acc jp with heq | ⟨d, qty, hd, hq1, hqb, heq⟩
    · rw [heq]
      exact ih acc
    · rw [heq]
      obtain ⟨ih1, ih2, ih3⟩ := ih
        { items := acc.items ++
            [{ return_item_id := acc.nextId, return_id := ret.return_id,
               order_id := ret.order_id, product_id := jp.2,
               product_name := d.name, category := d.cat,
               quantity_returned := qty, unit_price := d.price,
               refunded_amount := qty * d.price }],
          totalRefund := acc.totalRefund + qty * d.price,
          nextId := acc.nextId + 1,
          rs := fun k => if k = (ret.order_id, jp.2) then
              acc.rs (ret.order_id, jp.2) + qty
            else acc.rs k }
      refine ⟨?_, ?_, ?_⟩
      · intro it hit
        rcases ih1 it hit with hmem | hPnew
        · rcases List.mem_append.1 hmem with h | h
          · exact .inl h
          · right
            have hie := List.mem_singleton.1 h
            subst hie
            exact ⟨rfl, rfl, hq1, d, hd, rfl⟩
        · exact .inr hPnew
      · intro k
        rw [ih2 k, sumQtyRet_append, sumQtyRet_single]
        dsimp only
        by_cases hk : k = (ret.order_id, jp.2)
        · rw [if_pos hk, if_pos (by rw [hk])]
          rw [hk]
          omega
        · rw [if_neg hk, if_neg (fun h => hk (by rw [← h]))]
          omega
      · intro hb k
        refine ih3 ?_ k
        intro k2
        dsimp only
        by_cases hk : k2 = (ret.order_id, jp.2)
        · rw [if_pos hk, hk]
          have horig : origQtyOf st (ret.order_id, jp.2) = d.origQty := by
            unfold origQtyOf
            rw [hd]
          omega
        · rw [if_neg hk]
          exact hb k2

/-- Specification of `process_single_return` on success: every produced item
belongs to this return and order, has quantity at least 1 and the recorded
unit price; the updated `returned_so_far` equals the old one plus the items'
per-key quantity sums; and it never exceeds the original quantities. -/
theorem processSingleReturn_spec (st : HelperTables) (rs : String × ℕ → ℤ)
    (ret : Ret) (startId : ℕ) (o : SingleRetOracle)
    (its : List RetItem) (t : ℤ) (n : ℕ) (rs2 : String × ℕ → ℤ)
    (h : processSingleReturn st rs ret startId o = .ok (its, t, n, rs2)) :
    (∀ it ∈ its, it.order_id = ret.order_id ∧ it.return_id = ret.return_id ∧
       1 ≤ it.quantity_returned ∧
       ∃ d, st.details (ret.order_id, it.product_id) = some d ∧
         it.unit_price = d.price) ∧
    (∀ k, rs2 k - sumQtyRet its k = rs k) ∧
    ((∀ k, rs k ≤ origQtyOf st k) → ∀ k, rs2 k ≤ origQtyOf st k) := by
  unfold processSingleReturn at h
  by_cases hv : ¬ (pyStartsWith ret.order_id "SO-" ∧
      pyStartsWith ret.return_id "RET-" ∧
      (ret.return_type = "Partial" ∨ ret.return_type = "Full"))
  · rw [if_pos hv] at h
    exact absurd h (by simp)
  · rw [if_neg hv] at h
    cases hdet : determineProductsToReturn st ret.order_id ret.return_type o with
    | error e => rw [hdet] at h; exact absurd h (by simp)
    | ok pids =>
      rw [hdet] at h
      simp only [Except.ok.injEq, Prod.mk.injEq] at h
      obtain ⟨h1, h2, h3, h4⟩ := h
      obtain ⟨g1, g2, g3⟩ := psrFold_inv st ret o pids.enum
        { items := [], totalRefund := 0, nextId := startId, rs := rs }
      subst h1
      refine ⟨?_, ?_, ?_⟩
      · intro it hit
        rcases g1 it hit with hmem | hP
        · exact absurd hmem (List.not_mem_nil it)
        · exact hP
      · intro k
        have hg := g2 k
        rw [h4] at hg
        simpa [sumQtyRet] using hg
      · intro hb k
        rw [← h4]
        exact g3 hb k

/-! ### Refund-cap loop invariants -/

theorem sumQtyRet_cons (it : RetItem) (xs : List RetItem) (k : String × ℕ) :
    sumQtyRet (it :: xs) k =
      (if (it.order_id, it.product_id) = k then it.quantity_returned else 0) +
        sumQtyRet xs k := by
  by_cases h : (it.order_id, it.product_id) = k <;> simp [sumQtyRet, h]

theorem fdiv_mul_le (a b : ℤ) (hb : 0 < b) : a.fdiv b * b ≤ a := by
  rw [Int.fdiv_eq_ediv _ (le_of_lt hb)]
  exact Int.ediv_mul_le a (ne_of_gt hb)

theorem capStep_cases (totalMap : String → ℤ) (oid : String) (acc : CapState)
    (item : RetItem) :
    capStep totalMap oid acc item = acc ∨
    ∃ qty, qty = min item.quantity_returned
        (Int.fdiv (totalMap oid - acc.tracker oid) item.unit_price) ∧
      1 ≤ Int.fdiv (totalMap oid - acc.tracker oid) item.unit_price ∧
      0 < totalMap oid - acc.tracker oid ∧
      capStep totalMap oid acc item =
        { kept := acc.kept ++
            [{ item with
                 quantity_returned := qty,
                 refunded_amount := qty * item.unit_price }],
          totalCapped := acc.totalCapped + qty * item.unit_price,
          tracker := fun k => if k = oid then
              acc.tracker oid + qty * item.unit_price
            else acc.tracker k } := by
  unfold capStep
  dsimp only
  by_cases h1 : totalMap oid - acc.tracker oid ≤ 0
  · rw [if_pos h1]
    left; rfl
  · rw [if_neg h1]
    by_cases h2 : Int.fdiv (totalMap oid - acc.tracker oid) item.unit_price ≤ 0
    · rw [if_pos h2]
      left; rfl
    · rw [if_neg h2]
      right
      exact ⟨_, rfl, by omega, by omega, rfl⟩

theorem capFold_inv (totalMap : String → ℤ) (oid : String)
    (items : List RetItem)
    (hit : ∀ it ∈ items, it.order_id = oid ∧ 0 < it.unit_price ∧
      0 ≤ it.quantity_returned) :
    ∀ acc : CapState,
      (∀ k, 0 ≤ acc.tracker k ∧ acc.tracker k ≤ totalMap k) →
      ((∀ k, 0 ≤ (items.foldl (capStep totalMap oid) acc).tracker k ∧
          (items.foldl (capStep totalMap oid) acc).tracker k ≤ totalMap k) ∧
       (∀ k, (items.foldl (capStep totalMap oid) acc).tracker k -
          sumRefunds (items.foldl (capStep totalMap oid) acc).kept k =
          acc.tracker k - sumRefunds acc.kept k) ∧
       (∀ k, sumQtyRet (items.foldl (capStep totalMap oid) acc).kept k ≤
          sumQtyRet acc.kept k + sumQtyRet items k) ∧
       (∀ it2 ∈ (items.foldl (capStep totalMap oid) acc).kept,
          it2 ∈ acc.kept ∨ ∃ it ∈ items, it2.return_id = it.return_id ∧
            it2.order_id = it.order_id ∧ it2.product_id = it.product_id)) := by
  induction items with
  | nil =>
    intro acc hacc
    refine ⟨hacc, fun k => rfl, fun k => ?_, fun it2 h => .inl h⟩
    simp [sumQtyRet]
  | cons item rest ih =>
    intro acc hacc
    rw [List.foldl_cons]
    have hitem := hit item (List.mem_cons_self item rest)
    have hrest : ∀ it ∈ rest, it.order_id = oid ∧ 0 < it.unit_price ∧
        0 ≤ it.quantity_returned :=
      fun it h => hit it (List.mem_cons_of_mem _ h)
    rcases capStep_cases totalMap oid acc item with heq | ⟨qty, hqty, hq1, hr0, heq⟩
    · rw [heq]
      obtain ⟨g1, g2, g3, g4⟩ := ih hrest acc hacc
      refine ⟨g1, g2, fun k => ?_, ?_⟩
      · have := g3 k
        have h0 : 0 ≤ (if (item.order_id, item.product_id) = k then
            item.quantity_returned else 0) := by
          split
          · exact hitem.2.2
          · exact le_refl 0
        rw [sumQtyRet_cons]
        omega
      · intro it2 h2
        rcases g4 it2 h2 with h | ⟨it, hmem, h⟩
        · exact .inl h
        · exact .inr ⟨it, List.mem_cons_of_mem _ hmem, h⟩
    · rw [heq]
      have hqge : 0 ≤ qty := by
        rw [hqty]
        exact le_min hitem.2.2 (by omega)
      have hqle : qty * item.unit_price ≤ totalMap oid - acc.tracker oid := by
        calc qty * item.unit_price
            ≤ Int.fdiv (totalMap oid - acc.tracker oid) item.unit_price *
                item.unit_price := by
              refine mul_le_mul_of_nonneg_right ?_ (le_of_lt hitem.2.1)
              rw [hqty]
              exact min_le_right _ _
          _ ≤ totalMap oid - acc.tracker oid :=
              fdiv_mul_le _ _ hitem.2.1
      have hrefnn : 0 ≤ qty * item.unit_price :=
        mul_nonneg hqge (le_of_lt hitem.2.1)
      have hacc2 : ∀ k, 0 ≤ (fun k => if k = oid then
          acc.tracker oid + qty * item.unit_price else acc.tracker k) k ∧
          (fun k => if k = oid then
            acc.tracker oid + qty * item.unit_price else acc.tracker k) k ≤
            totalMap k := by
        intro k
        dsimp only
        by_cases hk : k = oid
        · rw [if_pos hk, hk]
          constructor
          · have := (hacc oid).1
            omega
          · omega
        · rw [if_neg hk]
          exact hacc k
      obtain ⟨g1, g2, g3, g4⟩ := ih hrest
        { kept := acc.kept ++
            [{ item with
                 quantity_returned := qty,
                 refunded_amount := qty * item.unit_price }],
          totalCapped := acc.totalCapped + qty * item.unit_price,
          tracker := fun k => if k = oid then
              acc.tracker oid + qty * item.unit_price
            else acc.tracker k } hacc2
      refine ⟨g1, fun k => ?_, fun k => ?_, ?_⟩
      · have hg := g2 k
        rw [sumRefunds_append, sumRefunds_single] at hg
        dsimp only at hg
        by_cases hk : k = oid
        · rw [if_pos hk] at hg
          rw [if_pos (by rw [hitem.1, hk])] at hg
          rw [hk] at hg ⊢
          omega
        · rw [if_neg hk] at hg
          rw [if_neg (by rw [hitem.1]; exact fun h => hk h.symm)] at hg
          omega
      · have hg := g3 k
        rw [sumQtyRet_append, sumQtyRet_single] at hg
        rw [sumQtyRet_cons]
        dsimp only at hg
        have hqle2 : qty ≤ item.quantity_returned := by
          rw [hqty]; exact min_le_left _ _
        by_cases hk : (item.order_id, item.product_id) = k
        · rw [if_pos hk] at hg
          rw [if_pos hk]
          omega
        · rw [if_neg hk] at hg
          rw [if_neg hk]
          omega
      · intro it2 h2
        rcases g4 it2 h2 with h | ⟨it, hmem, h⟩
        · rcases List.mem_append.1 h with h3 | h3
          · exact .inl h3
          · have hie := List.mem_singleton.1 h3
            subst hie
            exact .inr ⟨item, List.mem_cons_self item rest, rfl, rfl, rfl⟩
        · exact .inr ⟨it, List.mem_cons_of_mem _ hmem, h⟩

/-! ### Outer `generate_return_items` loop invariants -/

theorem orderTotalMap_foldl_nonneg (l : List Order) :
    ∀ f : String → ℤ, (∀ k, 0 ≤ f k) → (∀ ord ∈ l, 0 ≤ ord.order_total) →
      ∀ k, 0 ≤ (l.foldl
        (fun m o => fun k => if k = o.order_id then o.order_total else m k) f) k := by
  induction l with
  | nil => intro f hf _ k; exact hf k
  | cons ord rest ih =>
    intro f hf hl k
    rw [List.foldl_cons]
    refine ih _ ?_ (fun x hx => hl x (List.mem_cons_of_mem _ hx)) k
    intro k2
    dsimp only
    by_cases hk : k2 = ord.order_id
    · rw [if_pos hk]
      exact hl ord (List.mem_cons_self ord rest)
    · rw [if_neg hk]
      exact hf k2

theorem orderTotalMap_nonneg (orders : List Order)
    (h : ∀ ord ∈ orders, 0 ≤ ord.order_total) :
    ∀ k, 0 ≤ orderTotalMap orders k := by
  unfold orderTotalMap
  exact orderTotalMap_foldl_nonneg orders _ (fun k => le_refl 0) h

theorem griFold_inv (totalMap : String → ℤ) (st : HelperTables)
    (oS : ℕ → SingleRetOracle)
    (hdet : ∀ k d, st.details k = some d → 0 < d.price)
    (irets : List (ℕ × Ret)) :
    ∀ acc : GRIState,
      (∀ k, 0 ≤ acc.tracker k ∧ acc.tracker k ≤ totalMap k) →
      (∀ k, acc.rs k ≤ origQtyOf st k) →
      (∀ k, 0 ≤ (irets.foldl (griStep totalMap st oS) acc).tracker k ∧
        (irets.foldl (griStep totalMap st oS) acc).tracker k ≤ totalMap k) ∧
      (∀ k, (irets.foldl (griStep totalMap st oS) acc).tracker k -
          sumRefunds (irets.foldl (griStep totalMap st oS) acc).allItems k =
          acc.tracker k - sumRefunds acc.allItems k) ∧
      (∀ k, (irets.foldl (griStep totalMap st oS) acc).rs k ≤ origQtyOf st k) ∧
      (∀ k, sumQtyRet (irets.foldl (griStep totalMap st oS) acc).allItems k -
          (irets.foldl (griStep totalMap st oS) acc).rs k ≤
          sumQtyRet acc.allItems k - acc.rs k) := by
  induction irets with
  | nil =>
    intro acc h1 h2
    exact ⟨h1, fun k => rfl, h2, fun k => le_refl _⟩
  | cons ip rest ih =>
    intro acc h1 h2
    rw [List.foldl_cons]
    cases hp : processSingleReturn st acc.rs ip.2 acc.nextId (oS ip.1) with
    | error e =>
      have hstep : griStep totalMap st oS acc ip =
          { acc with updates := acc.updates ++ [(ip.2.return_id, 0)] } := by
        unfold griStep
        dsimp only
        rw [hp]
      rw [hstep]
      obtain ⟨g1, g2, g3, g4⟩ := ih
        { acc with updates := acc.updates ++ [(ip.2.return_id, 0)] } h1 h2
      exact ⟨g1, g2, g3, g4⟩
    | ok quad =>
      obtain ⟨pits, t, nid, rs2⟩ := quad
      obtain ⟨s1, s2, s3⟩ := processSingleReturn_spec st acc.rs ip.2 acc.nextId
        (oS ip.1) pits t nid rs2 hp
      have hit : ∀ it ∈ pits, it.order_id = ip.2.order_id ∧
          0 < it.unit_price ∧ 0 ≤ it.quantity_returned := by
        intro it hmem
        obtain ⟨ho, _, hq, d, hd, hup⟩ := s1 it hmem
        exact ⟨ho, by rw [hup]; exact hdet _ d hd, by omega⟩
      obtain ⟨c1, c2, c3, c4⟩ := capFold_inv totalMap ip.2.order_id pits hit
        { kept := [], totalCapped := 0, tracker := acc.tracker } h1
      have hstep : griStep totalMap st oS acc ip =
          { allItems := acc.allItems ++
              (pits.foldl (capStep totalMap ip.2.order_id)
                { kept := [], totalCapped := 0, tracker := acc.tracker }).kept,
            nextId := nid,
            tracker := (pits.foldl (capStep totalMap ip.2.order_id)
              { kept := [], totalCapped := 0, tracker := acc.tracker }).tracker,
            rs := rs2,
            updates := acc.updates ++ [(ip.2.return_id,
              (pits.foldl (capStep totalMap ip.2.order_id)
                { kept := [], totalCapped := 0, tracker := acc.tracker }).totalCapped)] } := by
        unfold griStep
        dsimp only
        rw [hp]
      rw [hstep]
      have hrs2 : ∀ k, rs2 k ≤ origQtyOf st k := s3 h2
      obtain ⟨g1, g2, g3, g4⟩ := ih
        { allItems := acc.allItems ++
            (pits.foldl (capStep totalMap ip.2.order_id)
              { kept := [], totalCapped := 0, tracker := acc.tracker }).kept,
          nextId := nid,
          tracker := (pits.foldl (capStep totalMap ip.2.order_id)
            { kept := [], totalCapped := 0, tracker := acc.tracker }).tracker,
          rs := rs2,
          updates := acc.updates ++ [(ip.2.return_id,
            (pits.foldl (capStep totalMap ip.2.order_id)
              { kept := [], totalCapped := 0, tracker := acc.tracker }).totalCapped)] }
        c1 hrs2
      refine ⟨g1, fun k => ?_, g3, fun k => ?_⟩
      · have hg := g2 k
        have hc := c2 k
        dsimp only at hg hc
        rw [sumRefunds_append] at hg
        have hz : sumRefunds ([] : List RetItem) k = 0 := by simp [sumRefunds]
        rw [hz] at hc
        omega
      · have hg := g4 k
        have hc := c3 k
        have hs := s2 k
        dsimp only at hg hc
        have hz : sumQtyRet ([] : List RetItem) k = 0 := by simp [sumQtyRet]
        rw [hz] at hc
        rw [sumQtyRet_append] at hg
        omega

theorem capFold_provenance (totalMap : String → ℤ) (oid : String)
    (items : List RetItem) :
    ∀ acc : CapState, ∀ it2 ∈ (items.foldl (capStep totalMap oid) acc).kept,
      it2 ∈ acc.kept ∨ ∃ it ∈ items, it2.return_id = it.return_id ∧
        it2.order_id = it.order_id ∧ it2.product_id = it.product_id := by
  induction items with
  | nil => intro acc it2 h; exact .inl h
  | cons item rest ih =>
    intro acc it2 h2
    rw [List.foldl_cons] at h2
    rcases ih _ it2 h2 with h | ⟨it, hmem, h⟩
    · rcases capStep_cases totalMap oid acc item with heq | ⟨qty, _, _, _, heq⟩
      · rw [heq] at h
        exact .inl h
      · rw [heq] at h
        dsimp only at h
        rcases List.mem_append.1 h with h3 | h3
        · exact .inl h3
        · have hie := List.mem_singleton.1 h3
          subst hie
          exact .inr ⟨item, List.mem_cons_self item rest, rfl, rfl, rfl⟩
    · exact .inr ⟨it, List.mem_cons_of_mem _ hmem, h⟩

theorem griFold_provenance (totalMap : String → ℤ) (st : HelperTables)
    (oS : ℕ → SingleRetOracle) (irets : List (ℕ × Ret)) :
    ∀ acc : GRIState, ∀ it ∈ (irets.foldl (griStep totalMap st oS) acc).allItems,
      it ∈ acc.allItems ∨ ∃ p ∈ irets, it.return_id = p.2.return_id ∧
        it.order_id = p.2.order_id := by
  induction irets with
  | nil => intro acc it h; exact .inl h
  | cons ip rest ih =>
    intro acc it hmem
    rw [List.foldl_cons] at hmem
    rcases ih _ it hmem with h | ⟨p, hp, h⟩
    · cases hp2 : processSingleReturn st acc.rs ip.2 acc.nextId (oS ip.1) with
      | error e =>
        have hstep : griStep totalMap st oS acc ip =
            { acc with updates := acc.updates ++ [(ip.2.return_id, 0)] } := by
          unfold griStep
          dsimp only
          rw [hp2]
        rw [hstep] at h
        exact .inl h
      | ok quad =>
        obtain ⟨pits, t, nid, rs2⟩ := quad
        obtain ⟨s1, _, _⟩ := processSingleReturn_spec st acc.rs ip.2 acc.nextId
          (oS ip.1) pits t nid rs2 hp2
        have hstep : griStep totalMap st oS acc ip =
            { allItems := acc.allItems ++
                (pits.foldl (capStep totalMap ip.2.order_id)
                  { kept := [], totalCapped := 0, tracker := acc.tracker }).kept,
              nextId := nid,
              tracker := (pits.foldl (capStep totalMap ip.2.order_id)
                { kept := [], totalCapped := 0, tracker := acc.tracker }).tracker,
              rs := rs2,
              updates := acc.updates ++ [(ip.2.return_id,
                (pits.foldl (capStep totalMap ip.2.order_id)
                  { kept := [], totalCapped := 0, tracker := acc.tracker }).totalCapped)] } := by
          unfold griStep
          dsimp only
          rw [hp2]
        rw [hstep] at h
        dsimp only at h
        rcases List.mem_append.1 h with h3 | h3
        · exact .inl h3
        · rcases capFold_provenance totalMap ip.2.order_id pits _ it h3 with
            h4 | ⟨it0, hmem0, h4⟩
          · exact absurd h4 (List.not_mem_nil it)
          · obtain ⟨ho, hrid, _⟩ := s1 it0 hmem0
            right
            refine ⟨ip, List.mem_cons_self ip rest, ?_, ?_⟩
            · rw [h4.1, hrid]
            · rw [h4.2.1, ho]
    · exact .inr ⟨p, List.mem_cons_of_mem _ hp, h⟩

/-! ### Distinctness of the sampled returns (`random.sample`) -/

theorem sampleBy_map_nodup (f : α → β) (idxs : List ℕ) (xs : List α)
    (hx : (xs.map f).Nodup) :
    ∀ _ : idxs.Nodup, ((sampleBy idxs xs).map f).Nodup := by
  induction idxs with
  | nil => intro _; simp [sampleBy]
  | cons i rest ih =>
    intro hi
    rw [List.nodup_cons] at hi
    simp only [sampleBy, List.filterMap_cons]
    cases hg : xs.get? i with
    | none => exact ih hi.2
    | some a =>
      rw [List.map_cons, List.nodup_cons]
      refine ⟨?_, ih hi.2⟩
      intro hmem
      rcases List.mem_map.1 hmem with ⟨b, hb, hfb⟩
      rcases List.mem_filterMap.1 hb with ⟨j, hj, hgj⟩
      have hlen : i < xs.length := by
        rcases List.get?_eq_some.1 hg with ⟨hl, _⟩
        exact hl
      have h1 : (xs.map f).get? i = some (f a) := by
        rw [List.get?_map, hg]
        rfl
      have h2 : (xs.map f).get? j = some (f b) := by
        rw [List.get?_map, hgj]
        rfl
      have hij : i = j := by
        refine @List.getElem?_inj _ i j (xs.map f) ?_ hx ?_
        · rw [List.length_map]
          exact hlen
        · rw [← List.get?_eq_getElem?, ← List.get?_eq_getElem?, h1, h2, hfb]
      exact hi.1 (hij ▸ hj)

theorem returnableOrders_sublist (cfg : ReturnsConfig) (o : ReturnsOracle)
    (orders : List Order) (items : List OrderItem) :
    (returnableOrders cfg o orders items).Sublist orders := by
  unfold returnableOrders
  have h2 := List.Sublist.map Prod.snd (List.filter_sublist (l := orders.enum)
    (p := fun p => decide (orderCategories items p.2.order_id ≠ [] ∧
      o.selRoll p.1 < orderPropensity cfg items p.2)))
  rw [List.enum_map_snd] at h2
  exact h2

theorem ordersToReturn_map_orderId_nodup (cfg : ReturnsConfig)
    (o : ReturnsOracle) (orders : List Order) (items : List OrderItem)
    (hids : (orders.map Order.order_id).Nodup) (hs : o.sampleIdxs.Nodup) :
    ((ordersToReturn cfg o orders items).map Order.order_id).Nodup := by
  have hret : ((returnableOrders cfg o orders items).map Order.order_id).Nodup :=
    List.Nodup.sublist
      (List.Sublist.map Order.order_id (returnableOrders_sublist cfg o orders items))
      hids
  unfold ordersToReturn
  dsimp only
  split
  · exact sampleBy_map_nodup Order.order_id _ _ hret
      (List.Nodup.sublist (List.take_sublist _ _) hs)
  · exact hret

theorem generate_returns_orderIds_nodup (cfg : ReturnsConfig)
    (o : ReturnsOracle) (orders : List Order) (items : List OrderItem)
    (endDate : ℤ) (rets : List Ret)
    (hids : (orders.map Order.order_id).Nodup) (hs : o.sampleIdxs.Nodup)
    (h : generate_returns cfg o orders items endDate = .ok rets) :
    (rets.map Ret.order_id).Nodup := by
  unfold generate_returns at h
  by_cases h1 : orders = []
  · rw [if_pos h1] at h
    exact absurd h (by simp)
  · rw [if_neg h1] at h
    by_cases h2 : items = []
    · rw [if_pos h2] at h
      simp only [Except.ok.injEq] at h
      rw [← h]
      simp
    · rw [if_neg h2] at h
      simp only [Except.ok.injEq] at h
      rw [← h, List.map_map]
      have hfun : (Ret.order_id ∘ fun p : ℕ × Order =>
          mkReturn cfg o endDate p.1 p.2) = fun p : ℕ × Order => p.2.order_id :=
        funext (fun p => rfl)
      rw [hfun]
      have hsnd : (fun p : ℕ × Order => p.2.order_id) =
          Order.order_id ∘ Prod.snd := rfl
      rw [hsnd, ← List.map_map, List.enum_map_snd]
      exact ordersToReturn_map_orderId_nodup cfg o orders items hids hs

theorem capFold_qty (totalMap : String → ℤ) (oid : String)
    (items : List RetItem)
    (hq : ∀ it ∈ items, 0 ≤ it.quantity_returned) :
    ∀ acc : CapState, ∀ k,
      sumQtyRet (items.foldl (capStep totalMap oid) acc).kept k ≤
        sumQtyRet acc.kept k + sumQtyRet items k := by
  induction items with
  | nil =>
    intro acc k
    simp [sumQtyRet]
  | cons item rest ih =>
    intro acc k
    rw [List.foldl_cons, sumQtyRet_cons]
    have hitem := hq item (List.mem_cons_self item rest)
    have hrest : ∀ it ∈ rest, 0 ≤ it.quantity_returned :=
      fun it h => hq it (List.mem_cons_of_mem _ h)
    have h0 : 0 ≤ (if (item.order_id, item.product_id) = k then
        item.quantity_returned else 0) := by
      split
      · exact hitem
      · exact le_refl 0
    rcases capStep_cases totalMap oid acc item with heq | ⟨qty, hqty, _, _, heq⟩
    · rw [heq]
      have := ih hrest acc k
      omega
    · rw [heq]
      have hg := ih hrest
        { kept := acc.kept ++
            [{ item with
                 quantity_returned := qty,
                 refunded_amount := qty * item.unit_price }],
          totalCapped := acc.totalCapped + qty * item.unit_price,
          tracker := fun k => if k = oid then
              acc.tracker oid + qty * item.unit_price
            else acc.tracker k } k
      dsimp only at hg
      rw [sumQtyRet_append, sumQtyRet_single] at hg
      dsimp only at hg
      have hqle : qty ≤ item.quantity_returned := by
        rw [hqty]
        exact min_le_left _ _
      by_cases hk : (item.order_id, item.product_id) = k
      · rw [if_pos hk] at hg ⊢
        omega
      · rw [if_neg hk] at hg ⊢
        omega

theorem griFold_qty (totalMap : String → ℤ) (st : HelperTables)
    (oS : ℕ → SingleRetOracle) (irets : List (ℕ × Ret)) :
    ∀ acc : GRIState, (∀ k, acc.rs k ≤ origQtyOf st k) →
      (∀ k, (irets.foldl (griStep totalMap st oS) acc).rs k ≤ origQtyOf st k) ∧
      (∀ k, sumQtyRet (irets.foldl (griStep totalMap st oS) acc).allItems k -
          (irets.foldl (griStep totalMap st oS) acc).rs k ≤
          sumQtyRet acc.allItems k - acc.rs k) := by
  induction irets with
  | nil => intro acc h2; exact ⟨h2, fun k => le_refl _⟩
  | cons ip rest ih =>
    intro acc h2
    rw [List.foldl_cons]
    cases hp : processSingleReturn st acc.rs ip.2 acc.nextId (oS ip.1) with
    | error e =>
      have hstep : griStep totalMap st oS acc ip =
          { acc with updates := acc.updates ++ [(ip.2.return_id, 0)] } := by
        unfold griStep
        dsimp only
        rw [hp]
      rw [hstep]
      exact ih { acc with updates := acc.updates ++ [(ip.2.return_id, 0)] } h2
    | ok quad =>
      obtain ⟨pits, t, nid, rs2⟩ := quad
      obtain ⟨s1, s2, s3⟩ := processSingleReturn_spec st acc.rs ip.2 acc.nextId
        (oS ip.1) pits t nid rs2 hp
      have hq : ∀ it ∈ pits, 0 ≤ it.quantity_returned := by
        intro it hmem
        obtain ⟨_, _, hq1, _⟩ := s1 it hmem
        omega
      have hstep : griStep totalMap st oS acc ip =
          { allItems := acc.allItems ++
              (pits.foldl (capStep totalMap ip.2.order_id)
                { kept := [], totalCapped := 0, tracker := acc.tracker }).kept,
            nextId := nid,
            tracker := (pits.foldl (capStep totalMap ip.2.order_id)
              { kept := [], totalCapped := 0, tracker := acc.tracker }).tracker,
            rs := rs2,
            updates := acc.updates ++ [(ip.2.return_id,
              (pits.foldl (capStep totalMap ip.2.order_id)
                { kept := [], totalCapped := 0, tracker := acc.tracker }).totalCapped)] } := by
        unfold griStep
        dsimp only
        rw [hp]
      rw [hstep]
      obtain ⟨g3, g4⟩ := ih
        { allItems := acc.allItems ++
            (pits.foldl (capStep totalMap ip.2.order_id)
              { kept := [], totalCapped := 0, tracker := acc.tracker }).kept,
          nextId := nid,
          tracker := (pits.foldl (capStep totalMap ip.2.order_id)
            { kept := [], totalCapped := 0, tracker := acc.tracker }).tracker,
          rs := rs2,
          updates := acc.updates ++ [(ip.2.return_id,
            (pits.foldl (capStep totalMap ip.2.order_id)
              { kept := [], totalCapped := 0, tracker := acc.tracker }).totalCapped)] }
        (s3 h2)
      refine ⟨g3, fun k => ?_⟩
      have hg := g4 k
      have hc := capFold_qty totalMap ip.2.order_id pits hq
        { kept := [], totalCapped := 0, tracker := acc.tracker } k
      have hs := s2 k
      dsimp only at hg hc
      have hz : sumQtyRet ([] : List RetItem) k = 0 := by simp [sumQtyRet]
      rw [hz] at hc
      rw [sumQtyRet_append] at hg
      omega

/-- C4: for every order, the cumulative `refunded_amount` over all return
items generated for it in a run stays between 0 and that order's
`order_total`: the cap loop drops an item when no refundable budget remains
and otherwise shrinks `quantity_returned` to `int(remaining // unit_price)`,
so the running per-order tracker never exceeds the cap.  (Prices are
positive whole-cent amounts and order totals non-negative, as the catalog
and order generators produce.) -/
theorem C4_cumulative_refund_capped_by_order_total (orders : List Order)
    (items : List OrderItem) (returns : List Ret) (oS : ℕ → SingleRetOracle)
    (hTot : ∀ ord ∈ orders, 0 ≤ ord.order_total)
    (hPrice : ∀ it ∈ items, 0 < it.unit_price)
    (hQty : ∀ it ∈ items, 0 ≤ it.quantity)
    (out : List RetItem × List (String × ℤ))
    (hout : generate_return_items orders items returns oS = .ok out) :
    ∀ oid : String, 0 ≤ sumRefunds out.1 oid ∧
      sumRefunds out.1 oid ≤ orderTotalMap orders oid := by
  unfold generate_return_items at hout
  by_cases h1 : returns = []
  · rw [if_pos h1] at hout
    exact absurd hout (by simp)
  · rw [if_neg h1] at hout
    by_cases h2 : items = []
    · rw [if_pos h2] at hout
      exact absurd hout (by simp)
    · rw [if_neg h2] at hout
      dsimp only at hout
      simp only [Except.ok.injEq] at hout
      have hdet := initHelper_price items hPrice
      have htm := orderTotalMap_nonneg orders hTot
      have hrs0 : ∀ k, (fun _ : String × ℕ => (0 : ℤ)) k ≤
          origQtyOf (initHelper items) k := by
        intro k
        rw [initHelper_origQty]
        exact sumQtyOrdered_nonneg items k hQty
      obtain ⟨g1, g2, _, _⟩ := griFold_inv (orderTotalMap orders)
        (initHelper items) oS hdet returns.enum
        { allItems := [], nextId := 1, tracker := fun _ => 0,
          rs := fun _ => 0, updates := [] }
        (fun k => ⟨le_refl 0, htm k⟩) hrs0
      intro oid
      have hg1 := g1 oid
      have hg2 := g2 oid
      dsimp only at hg1 hg2
      have hz : sumRefunds ([] : List RetItem) oid = 0 := by simp [sumRefunds]
      rw [hz] at hg2
      rw [← hout]
      dsimp only
      omega

/-- Witness for `C4_cumulative_refund_capped_by_order_total`: the concrete
full return of `ordW` refunds $20.00 of a $50.00 order. -/
theorem C4_cumulative_refund_capped_witness :
    0 ≤ sumRefunds [retItemW] "SO-1" ∧
      sumRefunds [retItemW] "SO-1" ≤ orderTotalMap [ordW] "SO-1" :=
  C4_cumulative_refund_capped_by_order_total [ordW] [itemW] [retW] oracleS
    (by decide) (by decide) (by decide) ([retItemW], [("RET-0", 2000)])
    (by rfl) "SO-1"

/-- C10: for every `(order_id, product_id)` pair, the total
`quantity_returned` over all return items produced in a run never exceeds
the total quantity of that product ordered in that order: the helper's
`returned_so_far` tracker admits at most `original - already_returned` per
return, and the cap pass only shrinks or drops items. -/
theorem C10_returned_quantity_within_ordered (orders : List Order)
    (items : List OrderItem) (returns : List Ret) (oS : ℕ → SingleRetOracle)
    (hQty : ∀ it ∈ items, 0 ≤ it.quantity)
    (out : List RetItem × List (String × ℤ))
    (hout : generate_return_items orders items returns oS = .ok out) :
    ∀ oid pid, sumQtyRet out.1 (oid, pid) ≤ sumQtyOrdered items (oid, pid) := by
  unfold generate_return_items at hout
  by_cases h1 : returns = []
  · rw [if_pos h1] at hout
    exact absurd hout (by simp)
  · rw [if_neg h1] at hout
    by_cases h2 : items = []
    · rw [if_pos h2] at hout
      exact absurd hout (by simp)
    · rw [if_neg h2] at hout
      dsimp only at hout
      simp only [Except.ok.injEq] at hout
      have hrs0 : ∀ k, (fun _ : String × ℕ => (0 : ℤ)) k ≤
          origQtyOf (initHelper items) k := by
        intro k
        rw [initHelper_origQty]
        exact sumQtyOrdered_nonneg items k hQty
      obtain ⟨q1, q2⟩ := griFold_qty (orderTotalMap orders)
        (initHelper items) oS returns.enum
        { allItems := [], nextId := 1, tracker := fun _ => 0,
          rs := fun _ => 0, updates := [] } hrs0
      intro oid pid
      have h3 := q1 (oid, pid)
      have h4 := q2 (oid, pid)
      dsimp only at h3 h4
      rw [initHelper_origQty] at h3
      have hz : sumQtyRet ([] : List RetItem) (oid, pid) = 0 := by
        simp [sumQtyRet]
      rw [hz] at h4
      rw [← hout]
      dsimp only
      omega

/-- Witness for `C10_returned_quantity_within_ordered`: both ordered units
are returned once, 2 ≤ 2. -/
theorem C10_returned_quantity_witness :
    sumQtyRet [retItemW] ("SO-1", 7) ≤ sumQtyOrdered [itemW] ("SO-1", 7) :=
  C10_returned_quantity_within_ordered [ordW] [itemW] [retW] oracleS
    (by decide) ([retItemW], [("RET-0", 2000)]) (by rfl) "SO-1" 7

/-- C5: across all returns generated in a run, no `(order_id, product_id)`
pair appears in the return items of two different returns.  This holds
because `generate_returns` samples each order at most once (distinct
`random.sample` positions over orders with distinct ids), so all return
items of an order belong to its unique return; the helper itself enforces
only quantity exhaustion, not a pair-exclusion set. -/
theorem C5_pair_returned_in_at_most_one_return (cfg : ReturnsConfig)
    (o : ReturnsOracle) (orders : List Order) (items : List OrderItem)
    (endDate : ℤ) (oS : ℕ → SingleRetOracle) (rets : List Ret)
    (out : List RetItem × List (String × ℤ))
    (hids : (orders.map Order.order_id).Nodup) (hs : o.sampleIdxs.Nodup)
    (hr : generate_returns cfg o orders items endDate = .ok rets)
    (hout : generate_return_items orders items rets oS = .ok out) :
    ∀ it1 ∈ out.1, ∀ it2 ∈ out.1,
      it1.order_id = it2.order_id → it1.product_id = it2.product_id →
        it1.return_id = it2.return_id := by
  have hnodup := generate_returns_orderIds_nodup cfg o orders items endDate
    rets hids hs hr
  unfold generate_return_items at hout
  by_cases h1 : rets = []
  · rw [if_pos h1] at hout
    exact absurd hout (by simp)
  · rw [if_neg h1] at hout
    by_cases h2 : items = []
    · rw [if_pos h2] at hout
      exact absurd hout (by simp)
    · rw [if_neg h2] at hout
      dsimp only at hout
      simp only [Except.ok.injEq] at hout
      intro it1 hm1 it2 hm2 hoid _hpid
      rw [← hout] at hm1 hm2
      dsimp only at hm1 hm2
      rcases griFold_provenance (orderTotalMap orders) (initHelper items) oS
          rets.enum _ it1 hm1 with habs | ⟨p1, hp1, hrid1, hoid1⟩
      · exact absurd habs (List.not_mem_nil it1)
      rcases griFold_provenance (orderTotalMap orders) (initHelper items) oS
          rets.enum _ it2 hm2 with habs | ⟨p2, hp2, hrid2, hoid2⟩
      · exact absurd habs (List.not_mem_nil it2)
      have hm1r : p1.2 ∈ rets := List.get?_mem (List.mem_enum_iff_get?.1 hp1)
      have hm2r : p2.2 ∈ rets := List.get?_mem (List.mem_enum_iff_get?.1 hp2)
      have heq : p1.2.order_id = p2.2.order_id := by
        rw [← hoid1, ← hoid2, hoid]
      have := List.inj_on_of_nodup_map hnodup hm1r hm2r heq
      rw [hrid1, hrid2, this]

/-- Witness for `C5_pair_returned_in_at_most_one_return` on the concrete
one-order pipeline, instantiated at the produced return item. -/
theorem C5_pair_returned_witness :
    retItemW.return_id = retItemW.return_id :=
  C5_pair_returned_in_at_most_one_return retCfg retOracle [ordW] [itemW] 100
    oracleS [retW] ([retItemW], [("RET-0", 2000)]) (by decide) (by decide)
    (by rfl) (by rfl) retItemW (by decide) retItemW (by decide) rfl rfl
